import Mathlib

/-!
# Nodejs-EKS-Deploy: the HTTP application and its bootstrap

A shallow embedding of `src/app.js` and `src/index.js`.

* `src/index.js` is embedded directly: the expression `process.env.PORT || 8080`,
  the call `server.listen(port, callback)` and the callback's `console.log`.
  What `server.listen` does with its argument follows Node's `net` module.
* `src/app.js` builds an Express application out of three library calls
  (`cors()`, `bodyParser.json()`, `app.get`).  The application value is built by
  the same three calls here; what the calls mean is given by a model of the
  libraries (Express 4 router and response, `cors`, `body-parser` with `type-is`,
  `media-typer` and `content-type`, `fresh`, `finalhandler`), each definition
  naming the library function it follows.
* Handlers are state passing: a handler receives the application state that
  outlives a request (`app.settings`, `app.locals`) and returns it, so that a
  handler that changes it can be written and told apart from one that does not.
* What the JavaScript runtime computes and this development does not
  (`JSON.parse`, zlib, iconv-lite, the SHA-1 inside an entity tag, the reading of
  a number from text other than decimal digits) is a field of `Runtime`; every
  theorem holds for every runtime.
* Text is taken to hold characters up to `U+00FF`, which is what Node delivers
  for a request line and for header values.
-/

namespace NodejsEksDeploy

/-! ## Part 1: text helpers

Strings are handled through their character lists, by structural recursion. -/

/-- Lower case of one character as `toLowerCase` gives it on Latin-1 text: the
ASCII capitals, and the capitals `U+00C0` to `U+00DE` other than `U+00D7`. -/
def lowerChar (c : Char) : Char :=
  if 192 ≤ c.toNat ∧ c.toNat ≤ 222 ∧ c.toNat ≠ 215 then Char.ofNat (c.toNat + 32)
  else c.toLower

/-- Lower-casing of a text (`toLowerCase`). -/
def lower (s : String) : String :=
  String.mk (s.data.map lowerChar)

/-- ASCII upper-casing (`toUpperCase` on an HTTP method). -/
def upper (s : String) : String :=
  String.mk (s.data.map Char.toUpper)

/-- The pieces of a character list between occurrences of `sep`. -/
def splitAt (sep : Char) : List Char → List (List Char)
  | [] => [[]]
  | c :: cs =>
    if c = sep then [] :: splitAt sep cs
    else
      match splitAt sep cs with
      | [] => [[c]]
      | seg :: segs => (c :: seg) :: segs

/-- Removal of the characters satisfying `p` at both ends. -/
def trimBy (p : Char → Bool) (cs : List Char) : List Char :=
  ((cs.dropWhile p).reverse.dropWhile p).reverse

/-- The blank `U+0020`. -/
def isBlank (c : Char) : Bool := c = ' '

/-- Linear white space: blank or horizontal tab. -/
def isLws (c : Char) : Bool := c = ' ' || c = '\t'

/-- The four JSON white-space characters `\x20 \x09 \x0a \x0d`. -/
def isJsonSpace (c : Char) : Bool :=
  c = ' ' || c = '\t' || c = '\n' || c = '\r'

/-- The characters `String.prototype.trim` removes: JavaScript white space and
line terminators. -/
def isJsSpace (c : Char) : Bool :=
  let n := c.toNat
  (9 ≤ n && n ≤ 13) || n = 32 || n = 160 || n = 5760 || (8192 ≤ n && n ≤ 8202) ||
    n = 8232 || n = 8233 || n = 8239 || n = 8287 || n = 12288 || n = 65279

/-- The value of a decimal digit, `none` for any other character. -/
def digitValue (c : Char) : Option Nat :=
  if c.toNat < 48 then none
  else if c.toNat ≤ 57 then some (c.toNat - 48)
  else none

/-- The number written by a list of decimal digits, most significant first,
on top of the accumulator `acc`; `none` when a character is not a digit. -/
def decimalValue (acc : Nat) : List Char → Option Nat
  | [] => some acc
  | c :: cs =>
    match digitValue c with
    | none => none
    | some d => decimalValue (10 * acc + d) cs

/-! ## Part 2: `src/index.js` -/

/-- A JavaScript value occurring in `src/index.js`: `process.env.PORT` is
`undefined` or a string, the literal `8080` is a number. -/
inductive JsValue where
  | undefined
  | str (s : String)
  | num (n : Nat)
  deriving DecidableEq

/-- JavaScript truthiness (`ToBoolean`): `undefined`, the empty string and `0`
are falsy, every other string or number is truthy. -/
def JsValue.truthy : JsValue → Bool
  | .undefined => false
  | .str s => decide (s ≠ "")
  | .num n => decide (n ≠ 0)

/-- The JavaScript operator `a || b`: `a` when `a` is truthy, else `b`. -/
def JsValue.or (a b : JsValue) : JsValue :=
  if a.truthy then a else b

/-- String conversion of a value inside a template literal. -/
def JsValue.toString : JsValue → String
  | .undefined => "undefined"
  | .str s => s
  | .num n => ToString.toString n

/-- The process environment `process.env`: variable names with their values. -/
abbrev Env := List (String × String)

/-- Property access `process.env[name]`: `undefined` when the variable is not
set, its string value otherwise. -/
def Env.get (env : Env) (name : String) : JsValue :=
  match env.lookup name with
  | none => .undefined
  | some s => .str s

/-- Line 5 of `src/index.js`: `const port = process.env.PORT || 8080`. -/
def port (env : Env) : JsValue :=
  (env.get "PORT").or (.num 8080)

/-- The state of the bootstrap process: the arguments `server.listen` has been
called with, the pending one-shot `listening` callbacks (each is the closure
`() => console.log(...)`, represented by the `port` it captured), and the lines
written by `console.log`. -/
structure Process where
  listenCalls : List JsValue
  onListening : List JsValue
  console : List String
  exited : Bool
  deriving DecidableEq

/-- The text the listen callback logs: the template literal of line 7. -/
def logLine (p : JsValue) : String :=
  "Server running on port " ++ p.toString

/-- Running `src/index.js` to the end of the script: `port` is computed, the
server is created and `server.listen(port, callback)` is called once.  The
callback has not run: binding completes asynchronously. -/
def main (env : Env) : Process :=
  { listenCalls := [port env], onListening := [port env], console := [], exited := false }

/-- What the network stack reports for the pending `listen`. -/
inductive BindEvent where
  | listening
  | error
  deriving DecidableEq

/-- Delivery of a bind event.  `listening` runs each pending callback once and
drops it (`server.listen` registers it with `once`); `error` has no listener in
`src/index.js`, so the process ends without the callback having run. -/
def Process.deliver (p : Process) : BindEvent → Process
  | .listening =>
    if p.exited then p
    else { p with onListening := [], console := p.console ++ p.onListening.map logLine }
  | .error => { p with onListening := [], exited := true }

/-- What `Number(text)` is, as far as `server.listen` tells numbers apart:
not a number, a negative number, a non-negative integer (negative zero is 0),
or another non-negative number (a fraction, `Infinity`). -/
inductive Numeric where
  | nan
  | negative
  | natural (n : Nat)
  | other
  deriving DecidableEq

/-- The conversion `Number(text)`.  A text that is empty or all white space is
0.  A text of decimal digits is the integer it writes (beyond 2^53 JavaScript
rounds it; it stays above 65535, which is all `server.listen` asks).  Any other
text (signs, white space around digits, fractions, exponents, hexadecimal,
words) is converted by the parameter `conv`. -/
def toNumeric (conv : String → Numeric) (text : String) : Numeric :=
  if trimBy isJsSpace text.data = [] then .natural 0
  else
    match decimalValue 0 text.data with
    | some n => .natural n
    | none => conv text

/-- What a call of `server.listen` asks the network stack for: a TCP port, a
port chosen by the system, a pipe (a UNIX domain socket path), or nothing
because the call throws `ERR_SOCKET_BAD_PORT`. -/
inductive ListenTarget where
  | tcp (port : Nat)
  | anyPort
  | pipe (path : String)
  | throws
  deriving DecidableEq

/-- The check `validatePort` followed by the bind, for a numeric value: only an
integer up to 65535 is a port, and port 0 lets the system choose. -/
def bindPort : Numeric → ListenTarget
  | .natural n => if n > 65535 then .throws else if n = 0 then .anyPort else .tcp n
  | _ => .throws

/-- The call `server.listen(arg, callback)` of Node's `net` module.  A string
that `Number` makes `NaN` or negative is a pipe name (`isPipeName`).  Any other
string, and a number, is a port: `validatePort` throws for a string that is
empty after trimming, for a value that is not an integer and for one above
65535.  With `undefined` the port is 0. -/
def listen (conv : String → Numeric) : JsValue → ListenTarget
  | .undefined => .anyPort
  | .num n => bindPort (.natural n)
  | .str s =>
    match toNumeric conv s with
    | .nan => .pipe s
    | .negative => .pipe s
    | v => if trimBy isJsSpace s.data = [] then .throws else bindPort v

/-! ## Part 3: requests, responses, the runtime, the application state -/

/-- An incoming request as the application sees it: `req.method`, the
pathname of `req.url`, `req.headers` (Node lower-cases the names) and the
payload. -/
structure Request where
  method : String
  path : String
  headers : List (String × String)
  body : String
  deriving DecidableEq

/-- Header access `req.headers[name]` for a lower-case `name`. -/
def Request.header (req : Request) (name : String) : Option String :=
  req.headers.lookup name

/-- What has been written as the response body. -/
inductive Body where
  | empty
  | sent (chunk : String)
  | errorDocument
  deriving DecidableEq

/-- The response object `res` while a request is handled, and at the end the
response that goes out.  `Body.errorDocument` is the HTML page of
`finalhandler`, whose text depends on the environment and is not spelled out. -/
structure Res where
  statusCode : Nat
  headers : List (String × String)
  body : Body
  deriving DecidableEq

/-- The response object Node hands to the application: status 200, no
headers, nothing written. -/
def Res.initial : Res :=
  { statusCode := 200, headers := [], body := .empty }

/-- Removal of a header, names compared without regard to case
(`res.removeHeader`). -/
def Res.removeHeader (res : Res) (name : String) : Res :=
  { res with headers := res.headers.filter (fun h => lower h.1 != lower name) }

/-- Setting a header replaces any earlier value of that name
(`res.setHeader`). -/
def Res.setHeader (res : Res) (name value : String) : Res :=
  { res with headers := (res.removeHeader name).headers ++ [(name, value)] }

/-- Reading a response header, names compared without regard to case
(`res.getHeader`, `res.get`). -/
def Res.getHeader (res : Res) (name : String) : Option String :=
  (res.headers.find? (fun h => lower h.1 == lower name)).map Prod.snd

/-- A JavaScript error object, with the `status` property when it has one
(errors made by `http-errors` have, a `SyntaxError` or a zlib error has not). -/
structure JsError where
  status : Option Nat
  deriving DecidableEq

/-- The call `createError(status, err)` of `http-errors`: the error keeps a
status of its own and gets `status` when it has none. -/
def createError (status : Nat) (err : JsError) : JsError :=
  match err.status with
  | none => { status := some status }
  | some s => if s = 0 then { status := some status } else err

/-- The way a handler function leaves: it calls `next()`, calls `next(err)`,
ends the response and calls nothing, throws while it runs (Express catches
that and goes on as for `next(err)`), or lets an exception escape from a later
callback, where nothing catches it. -/
inductive Signal where
  | next
  | nextErr (err : JsError)
  | ended
  | throws (err : JsError)
  | uncaught (err : JsError)
  deriving DecidableEq

/-- What the JavaScript runtime and native libraries compute.
* `jsonParse text`: `JSON.parse(text)` returns (`true`) or throws (`false`).
* `inflate encoding payload`: zlib inflation of a `gzip` or `deflate` payload,
  `none` when zlib reports an error.
* `decoder charset`: the iconv-lite decoder for a charset other than `utf-8`,
  `none` when iconv-lite has no such encoding.
* `etag chunk`: the entity tag Express computes for a response body.
* `dateLe a b`: the HTTP date `a` is not later than the HTTP date `b`. -/
structure Runtime where
  jsonParse : String → Bool
  inflate : String → String → Option String
  decoder : String → Option (String → String)
  etag : String → String
  dateLe : String → String → Bool

/-- The state of the application that outlives a request and that a handler
can reach through `req.app`: the settings `x-powered-by` and `etag`, which are
read while a request is handled, and `app.locals`. -/
structure AppState where
  xPoweredBy : Bool
  etag : Bool
  locals : List (String × String)
  deriving DecidableEq

/-- A handler function with the name Express records for it (`fn.name`).  It
is given the application state and the response object and returns both. -/
structure Handler where
  name : String
  run : Runtime → AppState → Request → Res → AppState × Res × Signal

/-! ## Part 4: Express responses (`express/lib/response.js`, `fresh`) -/

/-- A request header counts as given when it is present and not the empty
string (JavaScript truthiness of `req.headers[name]`). -/
def Request.given (req : Request) (name : String) : Option String :=
  match req.header name with
  | none => none
  | some v => if v = "" then none else some v

/-- The comma-separated tokens of a header value, blanks removed at both ends
of each (`parseTokenList` of the `fresh` package). -/
def parseTokenList (value : String) : List String :=
  (splitAt ',' value.data).map (fun seg => String.mk (trimBy isBlank seg))

/-- A `Cache-Control` value has the directive `no-cache` as one of its
comma-separated members (the test `CACHE_CONTROL_NO_CACHE_REGEXP`). -/
def hasNoCache (value : String) : Bool :=
  (splitAt ',' value.data).any (fun seg => String.mk (trimBy isLws seg) == "no-cache")

/-- An `If-None-Match` value names an entity tag: it is `*`, or one of its
tokens is the tag, with or without the weakness mark `W/`. -/
def noneMatchHits (noneMatch : String) (etag : Option String) : Bool :=
  if noneMatch = "*" then true
  else
    match etag with
    | none => false
    | some tag =>
      if tag = "" then false
      else (parseTokenList noneMatch).any
        (fun m => m == tag || m == "W/" ++ tag || "W/" ++ m == tag)

/-- The function `fresh(reqHeaders, resHeaders)` (package `fresh`, 0.5.x): the
conditional request headers show that the client already holds the response.
A request with neither `If-None-Match` nor `If-Modified-Since` is never fresh;
`Cache-Control: no-cache` overrides; `If-None-Match` has to be `*` or to list
the entity tag; `If-Modified-Since` needs a `Last-Modified` that is not later. -/
def fresh (rt : Runtime) (req : Request) (res : Res) : Bool :=
  let modifiedSince := req.given "if-modified-since"
  let noneMatch := req.given "if-none-match"
  if modifiedSince.isNone && noneMatch.isNone then false
  else if (req.given "cache-control").any hasNoCache then false
  else
    let etagOk : Bool :=
      match noneMatch with
      | none => true
      | some nm => noneMatchHits nm (res.getHeader "etag")
    let modifiedOk : Bool :=
      match modifiedSince with
      | none => true
      | some ms =>
        match res.getHeader "last-modified" with
        | none => false
        | some lm => if lm = "" then false else rt.dateLe lm ms
    etagOk && modifiedOk

/-- The getter `req.fresh`: only a GET or HEAD request whose response status
is 2xx or 304 can be fresh. -/
def Request.isFresh (rt : Runtime) (req : Request) (res : Res) : Bool :=
  if req.method != "GET" && req.method != "HEAD" then false
  else if (200 ≤ res.statusCode && res.statusCode < 300) || res.statusCode = 304 then
    fresh rt req res
  else false

/-- The call `res.status(code)`. -/
def Res.status (res : Res) (code : Nat) : Res :=
  { res with statusCode := code }

/-- The call `res.send(chunk)` for a string: default content type, content
length, entity tag (when the setting `etag` provides a generator), the
freshness check that turns the status into 304, removal of the entity headers
of a 204 or 304, and no body for HEAD. -/
def Res.send (res : Res) (rt : Runtime) (st : AppState) (req : Request) (chunk : String) :
    Res :=
  let r1 := if (res.getHeader "content-type").isNone
    then res.setHeader "Content-Type" "text/html; charset=utf-8" else res
  let generateETag := (r1.getHeader "etag").isNone && st.etag
  let r2 := r1.setHeader "Content-Length" (toString chunk.utf8ByteSize)
  let r3 := if generateETag && rt.etag chunk != "" then r2.setHeader "ETag" (rt.etag chunk) else r2
  let r4 := if req.isFresh rt r3 then r3.status 304 else r3
  let strip := r4.statusCode = 204 || r4.statusCode = 304
  let r5 := if strip then
      ((r4.removeHeader "Content-Type").removeHeader "Content-Length").removeHeader
        "Transfer-Encoding"
    else r4
  let out := if strip then "" else chunk
  { r5 with body := if req.method == "HEAD" then .empty else .sent out }

/-- Escaping of one character inside a JSON string literal. -/
def jsonEscape (c : Char) : List Char :=
  if c = '"' then ['\\', '"']
  else if c = '\\' then ['\\', '\\']
  else if c = '\n' then ['\\', 'n']
  else if c = '\r' then ['\\', 'r']
  else if c = '\t' then ['\\', 't']
  else [c]

/-- The JSON string literal for a text (`JSON.stringify` of a string; the
remaining control characters, written `\uXXXX` by JavaScript, do not occur in
the texts of this application). -/
def jsonQuote (text : String) : String :=
  String.mk (['"'] ++ text.data.flatMap jsonEscape ++ ['"'])

/-- The members of a JSON object, comma-separated. -/
def jsonMembers : List (String × String) → String
  | [] => ""
  | [(k, v)] => jsonQuote k ++ ":" ++ jsonQuote v
  | (k, v) :: rest => jsonQuote k ++ ":" ++ jsonQuote v ++ "," ++ jsonMembers rest

/-- The function `JSON.stringify` on an object whose values are strings, the
object being given by its members in order. -/
def stringify (obj : List (String × String)) : String :=
  "\x7b" ++ jsonMembers obj ++ "\x7d"

/-- The call `res.send(obj)` for a plain object, which is `res.json(obj)`:
serialise, set the JSON content type unless one is set, then send the text. -/
def Res.json (res : Res) (rt : Runtime) (st : AppState) (req : Request)
    (obj : List (String × String)) : Res :=
  let r1 := if (res.getHeader "content-type").isNone
    then res.setHeader "Content-Type" "application/json; charset=utf-8" else res
  r1.send rt st req (stringify obj)

/-! ## Part 5: the middleware `cors()` (`cors/lib/index.js`, default options)

Defaults: `origin: '*'`, `methods: 'GET,HEAD,PUT,PATCH,POST,DELETE'`,
`preflightContinue: false`, `optionsSuccessStatus: 204`, no credentials, no
exposed headers, no max age, allowed headers reflected from the request. -/

/-- The preflight step `configureAllowedHeaders` without an `allowedHeaders`
option: `Vary` names the request header, and a non-empty
`Access-Control-Request-Headers` is echoed. -/
def configureAllowedHeaders (req : Request) (res : Res) : Res :=
  let r1 := res.setHeader "Vary" "Access-Control-Request-Headers"
  match req.given "access-control-request-headers" with
  | none => r1
  | some v => r1.setHeader "Access-Control-Allow-Headers" v

/-- The handler returned by `cors()`.  An OPTIONS request is a preflight: the
headers are set and the response is ended with 204, `next` is not called.  Any
other request gets `Access-Control-Allow-Origin: *` and goes on.  The
application state is not touched. -/
def cors : Handler :=
  { name := "corsMiddleware"
    run := fun _ st req res =>
      if upper req.method == "OPTIONS" then
        let r1 := res.setHeader "Access-Control-Allow-Origin" "*"
        let r2 := r1.setHeader "Access-Control-Allow-Methods" "GET,HEAD,PUT,PATCH,POST,DELETE"
        let r3 := configureAllowedHeaders req r2
        let r4 := (r3.status 204).setHeader "Content-Length" "0"
        (st, { r4 with body := .empty }, .ended)
      else
        (st, res.setHeader "Access-Control-Allow-Origin" "*", .next) }

/-! ## Part 6: the middleware `bodyParser.json()` (`body-parser` 1.x, default options)

Defaults: `limit: '100kb'`, `inflate: true`, `strict: true`,
`type: 'application/json'`, no `verify`, no `reviver`.  The content type is
tested by `type-is` with `media-typer` 0.3, the charset is read by
`content-type` 1.0. -/

/-- The test `typeis.hasBody(req)`: a `Transfer-Encoding` header, or a
`Content-Length` header (Node admits a request only when its `Content-Length`
is a decimal number, so a present one is numeric). -/
def hasBody (req : Request) : Bool :=
  (req.header "transfer-encoding").isSome || (req.header "content-length").isSome

/-- An ASCII letter or digit. -/
def isAlnum (c : Char) : Bool :=
  let n := c.toNat
  (48 ≤ n && n ≤ 57) || (65 ≤ n && n ≤ 90) || (97 ≤ n && n ≤ 122)

/-- A character of an HTTP token: the class
``[!#$%&'*+\-.0-9A-Z^_`a-z|~]`` of both parameter expressions. -/
def isTokenChar (c : Char) : Bool :=
  let n := c.toNat
  n = 33 || (35 ≤ n && n ≤ 39) || n = 42 || n = 43 || n = 45 || n = 46 ||
    (48 ≤ n && n ≤ 57) || (65 ≤ n && n ≤ 90) || (94 ≤ n && n ≤ 122) || n = 124 || n = 126

/-- A character of a media-typer type name after the first: `[A-Za-z0-9!#$&^_-]`. -/
def isTypeNameChar (c : Char) : Bool :=
  let n := c.toNat
  isAlnum c || n = 33 || n = 35 || n = 36 || n = 38 || n = 94 || n = 95 || n = 45

/-- A character of a media-typer subtype name after the first:
`[A-Za-z0-9!#$&^_.-]`. -/
def isSubtypeNameChar (c : Char) : Bool :=
  isTypeNameChar c || c.toNat = 46

/-- A character of the subtype inside `typeRegExp`, where `+` is admitted too. -/
def isSubtypeChar (c : Char) : Bool :=
  isSubtypeNameChar c || c.toNat = 43

/-- A name of the shape `[A-Za-z0-9]` followed by at most 126 characters of the
class `p`. -/
def isName (p : Char → Bool) (cs : List Char) : Bool :=
  match cs with
  | [] => false
  | c :: rest => isAlnum c && rest.all p && decide (rest.length ≤ 126)

/-- Text inside a quoted parameter value for media-typer:
`[ !#-[]-~\u0080-ÿ]`. -/
def typerQdtext (c : Char) : Bool :=
  let n := c.toNat
  n = 32 || n = 33 || (35 ≤ n && n ≤ 91) || (93 ≤ n && n ≤ 126) || (128 ≤ n && n ≤ 255)

/-- A character that may follow a backslash in a quoted value for media-typer:
`[ -~]`. -/
def typerQesc (c : Char) : Bool :=
  32 ≤ c.toNat && c.toNat ≤ 126

/-- Text inside a quoted parameter value for content-type:
`[\u000b !#-[]-~\u0080-ÿ]`. -/
def ctypeQdtext (c : Char) : Bool :=
  c.toNat = 11 || typerQdtext c

/-- A character that may follow a backslash in a quoted value for content-type:
`[\u000b -ÿ]`. -/
def ctypeQesc (c : Char) : Bool :=
  c.toNat = 11 || (32 ≤ c.toNat && c.toNat ≤ 255)

/-- The rest of a quoted value after its opening quote: the text up to the
closing quote with the escapes removed, and what follows the closing quote;
`none` when the value is not closed or holds a character outside the classes. -/
def quotedRest (qd qe : Char → Bool) : List Char → Option (List Char × List Char)
  | [] => none
  | c :: cs =>
    if c = '"' then some ([], cs)
    else if c = '\\' then
      match cs with
      | [] => none
      | e :: rest =>
        if qe e then (quotedRest qd qe rest).map (fun r => (e :: r.1, r.2)) else none
    else if qd c then (quotedRest qd qe cs).map (fun r => (c :: r.1, r.2))
    else none

/-- One match of the parameter expression
`; *(token) *= *("quoted"|token) *` at the start of the text: the name in lower
case, the value without quotes and escapes, and the text after the match;
`none` when the expression does not match there. -/
def parseParam (qd qe : Char → Bool) (cs : List Char) :
    Option (String × String × List Char) :=
  match cs with
  | ';' :: r0 =>
    let r1 := r0.dropWhile isBlank
    let key := r1.takeWhile isTokenChar
    match (r1.dropWhile isTokenChar).dropWhile isBlank with
    | '=' :: r3 =>
      if key = [] then none
      else
        match r3.dropWhile isBlank with
        | '"' :: r5 =>
          match quotedRest qd qe r5 with
          | none => none
          | some (v, r6) => some (lower (String.mk key), String.mk v, r6.dropWhile isBlank)
        | r4 =>
          let v := r4.takeWhile isTokenChar
          if v = [] then none
          else some (lower (String.mk key), String.mk v,
            (r4.dropWhile isTokenChar).dropWhile isBlank)
    | _ => none
  | _ => none

/-- The parameter loop of `parse`: parameters are matched one after the other
until the text ends; `none` (the `TypeError` for an invalid parameter format)
when text is left that is not a parameter.  The first argument bounds the
number of rounds; the length of the text is enough, each round using up at
least the semicolon. -/
def parseParams (qd qe : Char → Bool) : Nat → List Char → Option (List (String × String))
  | _, [] => some []
  | 0, _ :: _ => none
  | n + 1, c :: cs =>
    match parseParam qd qe (c :: cs) with
    | none => none
    | some (k, v, rest) => (parseParams qd qe n rest).map (fun ps => (k, v) :: ps)

/-- The function `splitType` of media-typer on the text before the first
semicolon: in lower case it has to be blanks, a type name, a slash, a subtype
name (where `+` may occur) and blanks; the result is the two names. -/
def splitType (cs : List Char) : Option (List Char × List Char) :=
  let s := (cs.map lowerChar).dropWhile isBlank
  let type := s.takeWhile isTypeNameChar
  match s.dropWhile isTypeNameChar with
  | '/' :: r =>
    let subtype := r.takeWhile isSubtypeChar
    let tail := r.dropWhile isSubtypeChar
    if isName isTypeNameChar type && isName isSubtypeChar subtype && tail.all isBlank
    then some (type, subtype) else none
  | _ => none

/-- The function `format` of media-typer on a split type without parameters:
the subtype is cut at its last `+` into subtype and suffix, both are checked
(a subtype name has no `+`, a suffix no `.`), and the type is written
`type/subtype`, with `+suffix` when the suffix is not empty. -/
def formatType (type subtype : List Char) : Option String :=
  if subtype.contains '+' then
    let suffix := (subtype.reverse.takeWhile (fun c => c != '+')).reverse
    let sub := ((subtype.reverse.dropWhile (fun c => c != '+')).drop 1).reverse
    if !isName isSubtypeNameChar sub then none
    else if suffix = [] then some (String.mk (type ++ ['/'] ++ sub))
    else if isName isTypeNameChar suffix then
      some (String.mk (type ++ ['/'] ++ sub ++ ['+'] ++ suffix))
    else none
  else if isName isSubtypeNameChar subtype then some (String.mk (type ++ ['/'] ++ subtype))
  else none

/-- The function `tryNormalizeType` of type-is: the media type of a
`Content-Type` value without its parameters, `none` when the value is empty or
media-typer's `parse` or `format` throws (a malformed type, or text after the
type that is not a well-formed parameter list). -/
def tryNormalizeType (value : String) : Option String :=
  let head := value.data.takeWhile (fun c => c != ';')
  let tail := value.data.dropWhile (fun c => c != ';')
  match splitType head with
  | none => none
  | some (type, subtype) =>
    match parseParams typerQdtext typerQesc tail.length tail with
    | none => none
    | some _ => formatType type subtype

/-- The test `shouldParse(req)`, which is `typeis(req, 'application/json')`: the
request has a body and its normalised content type is `application/json`. -/
def shouldParse (req : Request) : Bool :=
  hasBody req &&
    match req.header "content-type" with
    | none => false
    | some v => tryNormalizeType v == some "application/json"

/-- The test `TYPE_REGEXP` of content-type: `token/token`. -/
def isTokenPair (cs : List Char) : Bool :=
  match cs.dropWhile isTokenChar with
  | '/' :: r => !(cs.takeWhile isTokenChar).isEmpty && !r.isEmpty && r.all isTokenChar
  | _ => false

/-- The parameters of a `Content-Type` value as `contentType.parse` returns
them, `none` when it throws (the type is not `token/token` after trimming, or
the text after it is not a well-formed parameter list). -/
def contentTypeParameters (value : String) : Option (List (String × String)) :=
  let head := trimBy isJsSpace (value.data.takeWhile (fun c => c != ';'))
  let tail := value.data.dropWhile (fun c => c != ';')
  if isTokenPair head then parseParams ctypeQdtext ctypeQesc tail.length tail else none

/-- The charset body-parser reads from the request (`getCharset(req) || 'utf-8'`):
the `charset` parameter of `Content-Type` in lower case (the last one when it
is given more than once), and `utf-8` when the header is missing, when
`contentType.parse` throws, or when there is no such parameter. -/
def getCharset (req : Request) : String :=
  match req.header "content-type" with
  | none => "utf-8"
  | some v =>
    match contentTypeParameters v with
    | none => "utf-8"
    | some ps =>
      match ps.reverse.lookup "charset" with
      | none => "utf-8"
      | some c => if c = "" then "utf-8" else lower c

/-- The first character of a text that is not JSON white space (`firstchar`). -/
def firstchar (text : String) : Option Char :=
  (text.data.dropWhile isJsonSpace).head?

/-- The function `parse(body)` of the JSON parser in strict mode, as success
(`true`) or a thrown syntax error (`false`): the empty text is accepted as the
empty object; otherwise the first significant character has to open an object
or an array, and `JSON.parse` has to accept the text. -/
def parse (rt : Runtime) (text : String) : Bool :=
  if text.data = [] then true
  else if firstchar text = some (Char.ofNat 123) || firstchar text = some '[' then
    rt.jsonParse text
  else false

/-- The option `limit: '100kb'` in bytes. -/
def limit : Nat := 102400

/-- The content coding body-parser reads:
`(req.headers['content-encoding'] || 'identity').toLowerCase()`. -/
def contentEncoding (req : Request) : String :=
  match req.given "content-encoding" with
  | none => "identity"
  | some v => lower v

/-- The function `read` of body-parser with raw-body: the content coding has to
be `identity`, `gzip` or `deflate` (else 415); the charset needs a decoder (else
415); the payload, inflated when coded, must not exceed the limit (413; a zlib
error has no status); the result is the decoded text. -/
def read (rt : Runtime) (req : Request) (charset : String) : Except JsError String :=
  let encoding := contentEncoding req
  if encoding != "identity" && encoding != "gzip" && encoding != "deflate" then
    .error { status := some 415 }
  else if charset != "utf-8" && (rt.decoder charset).isNone then
    .error { status := some 415 }
  else
    let payload : Option String :=
      if encoding == "identity" then some req.body else rt.inflate encoding req.body
    match payload with
    | none => .error { status := none }
    | some bytes =>
      if bytes.utf8ByteSize > limit then .error { status := some 413 }
      else if charset == "utf-8" then .ok bytes
      else
        match rt.decoder charset with
        | none => .error { status := some 415 }
        | some dec => .ok (dec bytes)

/-- The handler returned by `bodyParser.json()` (`jsonParser`): a request
without a body or of another content type is passed on unread; a charset not
starting with `utf-` is a 415; otherwise the body is read and parsed.  A failure
of the read, and the syntax error `parse` throws, which the handler catches, are
passed to `next(err)` with status 400 unless the error has its own.  Nothing
escapes uncaught and the application state is not touched. -/
def bodyParser.json : Handler :=
  { name := "jsonParser"
    run := fun rt st req res =>
      if !hasBody req then (st, res, .next)
      else if !shouldParse req then (st, res, .next)
      else
        let charset := getCharset req
        if charset.data.take 4 ≠ "utf-".data then (st, res, .nextErr { status := some 415 })
        else
          match read rt req charset with
          | .error e => (st, res, .nextErr (createError 400 e))
          | .ok text =>
            if parse rt text then (st, res, .next)
            else (st, res, .nextErr (createError 400 { status := none })) }

/-! ## Part 7: the Express application and router (`express/lib`) -/

/-- A route: its path, the methods registered on it (`route.methods`, lower
case) and its stack of handlers, each with the method it was registered for. -/
structure Route where
  path : String
  methods : List String
  stack : List (String × Handler)

/-- A layer of the router stack: a middleware function mounted by
`app.use(fn)`, which matches every path, or a route. -/
inductive Layer where
  | middleware (h : Handler)
  | route (r : Route)

/-- The application object: the router options `caseSensitive` and `strict`,
fixed when the router is made, the state that handlers can reach, and the
router stack. -/
structure App where
  caseSensitive : Bool
  strict : Bool
  state : AppState
  stack : List Layer

/-- The built-in middleware `query` (it fills `req.query`, which nothing in the
application reads). -/
def query : Handler :=
  { name := "query", run := fun _ st _ res => (st, res, .next) }

/-- The built-in middleware `expressInit`: sets `X-Powered-By: Express` when
the setting `x-powered-by` is enabled at the time of the request. -/
def expressInit : Handler :=
  { name := "expressInit"
    run := fun _ st _ res =>
      (st, if st.xPoweredBy then res.setHeader "X-Powered-By" "Express" else res, .next) }

/-- The call `express()`: default settings (routing neither case-sensitive nor
strict, `x-powered-by` enabled, weak entity tags, no locals) and the router with
its two built-in layers. -/
def express : App :=
  { caseSensitive := false
    strict := false
    state := { xPoweredBy := true, etag := true, locals := [] }
    stack := [.middleware query, .middleware expressInit] }

/-- The call `app.use(fn)`: a middleware layer is appended to the stack. -/
def App.use (app : App) (fn : Handler) : App :=
  { app with stack := app.stack ++ [.middleware fn] }

/-- The call `app.get(path, fn)`: a route layer for `path` with the one
handler `fn` registered for `get` is appended to the stack. -/
def App.get (app : App) (path : String) (fn : Handler) : App :=
  { app with
    stack := app.stack ++ [.route { path := path, methods := ["get"], stack := [("get", fn)] }] }

/-- The match of a route layer against a request path (`Layer.match` with the
regular expression path-to-regexp builds for a literal path such as `/test`
that does not end in a slash): the whole path has to be the route path, letter
case ignored unless routing is case-sensitive, one trailing slash allowed
unless routing is strict. -/
def matchPath (app : App) (routePath path : String) : Bool :=
  let fold := fun (s : String) => if app.caseSensitive then s else lower s
  fold path == fold routePath || (!app.strict && fold path == fold routePath ++ "/")

/-- The method `Route._handles_method`: HEAD is served by a `get` handler when
no `head` handler is registered. -/
def Route.handlesMethod (r : Route) (method : String) : Bool :=
  let name := lower method
  let name := if name == "head" && !r.methods.contains "head" then "get" else name
  r.methods.contains name

/-- The method `Route._options`: the methods of the route for an `Allow`
header, in upper case, with HEAD added to GET. -/
def Route.options (r : Route) : List String :=
  (if r.methods.contains "get" && !r.methods.contains "head"
    then r.methods ++ ["head"] else r.methods).map upper

/-- The state of a request on its way through the layers: the application
state, the response object and the names of the handlers that were run. -/
structure Progress where
  state : AppState
  res : Res
  trace : List String

/-- One handler run by a layer (`Layer.handle_request`): the handler gets the
state and the response and returns them, its name goes into the trace, and an
exception it throws while running is caught and becomes `next(err)`. -/
def runHandler (rt : Runtime) (req : Request) (h : Handler) (p : Progress) :
    Progress × Signal :=
  match h.run rt p.state req p.res with
  | (st, res, .throws e) => ({ state := st, res := res, trace := p.trace ++ [h.name] }, .nextErr e)
  | (st, res, sig) => ({ state := st, res := res, trace := p.trace ++ [h.name] }, sig)

/-- The method `Route.dispatch` over the rest of the route stack: a handler
registered for another method is skipped, a handler that calls `next()` is
followed by the rest, any other exit ends the dispatch. -/
def Route.dispatch (rt : Runtime) (req : Request) (method : String) :
    List (String × Handler) → Progress → Progress × Signal
  | [], p => (p, .next)
  | (m, h) :: rest, p =>
    if m != method then Route.dispatch rt req method rest p
    else
      match runHandler rt req h p with
      | (p1, .next) => Route.dispatch rt req method rest p1
      | (p1, sig) => (p1, sig)

/-- The method name `Route.dispatch` compares handlers with. -/
def Route.dispatchMethod (r : Route) (req : Request) : String :=
  let method := lower req.method
  if method == "head" && !r.methods.contains "head" then "get" else method

/-- The status `finalhandler` takes from an error: its `status` when that lies
in 400..599, else the status of the response when that does, else 500. -/
def errorStatus (err : JsError) (res : Res) : Nat :=
  match err.status with
  | some s =>
    if 400 ≤ s && s < 600 then s
    else if 400 ≤ res.statusCode && res.statusCode ≤ 599 then res.statusCode
    else 500
  | none => if 400 ≤ res.statusCode && res.statusCode ≤ 599 then res.statusCode else 500

/-- The default handler `finalhandler`: 404 when no layer answered, else the
status taken from the error; security and content-type headers; the HTML page,
or no body for HEAD.  The page text and its `Content-Length` are not spelled
out. -/
def finalhandler (req : Request) (err : Option JsError) (res : Res) : Res :=
  let status : Nat :=
    match err with
    | none => 404
    | some e => errorStatus e res
  let r1 := (res.status status).setHeader "Content-Security-Policy" "default-src \x27none\x27"
  let r2 := r1.setHeader "X-Content-Type-Options" "nosniff"
  let r3 := (r2.setHeader "Content-Type" "text/html; charset=utf-8").removeHeader "Content-Length"
  { r3 with body := if req.method == "HEAD" then .empty else .errorDocument }

/-- How the handling of a request ends: the response, the names of the
handler functions that were run, in order, and whether an exception left the
application uncaught. -/
structure Outcome where
  res : Res
  trace : List String
  raised : Bool
  deriving DecidableEq

/-- The end of the router stack (`done`): an OPTIONS request for which routes
offered methods and no error occurred gets the automatic `Allow` response,
everything else goes to `finalhandler`. -/
def Router.done (rt : Runtime) (req : Request) (err : Option JsError) (p : Progress)
    (options : List String) : AppState × Outcome :=
  if req.method == "OPTIONS" && err.isNone && !options.isEmpty then
    let allow := String.intercalate "," options
    (p.state,
      { res := (p.res.setHeader "Allow" allow).send rt p.state req allow
        trace := p.trace, raised := false })
  else
    (p.state, { res := finalhandler req err p.res, trace := p.trace, raised := false })

/-- The function `next` inside `Router.handle`, over the rest of the stack.
While an error is pending, middleware (none here takes four arguments) and
routes are skipped.  A middleware layer matches every path.  A route layer is
entered when its path matches and it handles the method (or the method is
HEAD); on OPTIONS the methods of a matching route are collected.  An exception
that escapes uncaught ends the handling without a response being completed. -/
def Router.handle (rt : Runtime) (app : App) (req : Request) :
    List Layer → Option JsError → Progress → List String → AppState × Outcome
  | [], err, p, options => Router.done rt req err p options
  | .middleware h :: rest, err, p, options =>
    match err with
    | some e => Router.handle rt app req rest (some e) p options
    | none =>
      match runHandler rt req h p with
      | (p1, .next) => Router.handle rt app req rest none p1 options
      | (p1, .nextErr e) => Router.handle rt app req rest (some e) p1 options
      | (p1, .throws e) => Router.handle rt app req rest (some e) p1 options
      | (p1, .ended) => (p1.state, { res := p1.res, trace := p1.trace, raised := false })
      | (p1, .uncaught _) => (p1.state, { res := p1.res, trace := p1.trace, raised := true })
  | .route r :: rest, err, p, options =>
    if !matchPath app r.path req.path then Router.handle rt app req rest err p options
    else if err.isSome then Router.handle rt app req rest err p options
    else
      let has := r.handlesMethod req.method
      let options1 := if !has && req.method == "OPTIONS" then options ++ r.options else options
      if !has && req.method != "HEAD" then Router.handle rt app req rest none p options1
      else
        match Route.dispatch rt req (r.dispatchMethod req) r.stack p with
        | (p1, .next) => Router.handle rt app req rest none p1 options1
        | (p1, .nextErr e) => Router.handle rt app req rest (some e) p1 options1
        | (p1, .throws e) => Router.handle rt app req rest (some e) p1 options1
        | (p1, .ended) => (p1.state, { res := p1.res, trace := p1.trace, raised := false })
        | (p1, .uncaught _) => (p1.state, { res := p1.res, trace := p1.trace, raised := true })

/-- The method `app.handle`: the request runs through the router stack from
its start with a new response object and the state of the application; the
application comes back with the state the handlers left. -/
def App.handle (app : App) (rt : Runtime) (req : Request) : App × Outcome :=
  let done := Router.handle rt app req app.stack none
    { state := app.state, res := Res.initial, trace := [] } []
  ({ app with state := done.1 }, done.2)

/-- The requests of a list handled one after the other by the same
application: the application after the last one, and the outcomes in order. -/
def App.serve (app : App) (rt : Runtime) : List Request → App × List Outcome
  | [] => (app, [])
  | req :: rest =>
    let step := app.handle rt req
    let tail := App.serve step.1 rt rest
    (tail.1, step.2 :: tail.2)

/-! ## Part 8: `src/app.js` -/

/-- The object literal of line 14: `{ text: 'Simple Node App Is Working As Expected!' }`. -/
def payload : List (String × String) :=
  [("text", "Simple Node App Is Working As Expected!")]

/-- The route handler of lines 13 to 15:
`(req, res) => { res.status(200).send({ text: ... }) }`.  It ends the response
and does not call `next`; it assigns to nothing, so the application state
comes back as it was given.  Express records an arrow function without a name
as `<anonymous>`. -/
def testHandler : Handler :=
  { name := "<anonymous>"
    run := fun rt st req res => (st, (res.status 200).json rt st req payload, .ended) }

/-- Lines 8 to 15 of `src/app.js`:
`const app = express(); app.use(cors()); app.use(bodyParser.json());
app.get('/test', handler)`. -/
def app : App :=
  ((express.use cors).use bodyParser.json).get "/test" testHandler

/-- The response body of the route: the serialisation of `payload`. -/
def fixedBody : String :=
  "\x7b\"text\":\"Simple Node App Is Working As Expected!\"\x7d"

/-- A runtime whose `JSON.parse` accepts every text and which has no coded or
non-UTF-8 payloads to deal with; entity tags are a fixed tag. -/
def Runtime.lenient : Runtime :=
  { jsonParse := fun _ => true
    inflate := fun _ _ => none
    decoder := fun _ => none
    etag := fun _ => "W/\"tag\""
    dateLe := fun _ _ => false }

/-! ## Part 9: values the theorems speak about -/

/-- The response object as `expressInit` and `cors` leave it for a request
that is not a preflight: status 200, the two headers, nothing written. -/
def base : Res :=
  { statusCode := 200
    headers := [("X-Powered-By", "Express"), ("Access-Control-Allow-Origin", "*")]
    body := .empty }

/-- The response object of the route handler after `res.json` has set the
content type and `res.send` the content length of the fixed body. -/
def sized : Res :=
  { statusCode := 200
    headers := [("X-Powered-By", "Express"), ("Access-Control-Allow-Origin", "*"),
      ("Content-Type", "application/json; charset=utf-8"), ("Content-Length", "50")]
    body := .empty }

/-- The route that `app.get('/test', handler)` registers. -/
def routeLayer : Route :=
  { path := "/test", methods := ["get"], stack := [("get", testHandler)] }

/-- The response `cors` ends an OPTIONS request with. -/
def preflight (req : Request) : Res :=
  let r := configureAllowedHeaders req
    { statusCode := 200
      headers := [("X-Powered-By", "Express"), ("Access-Control-Allow-Origin", "*"),
        ("Access-Control-Allow-Methods", "GET,HEAD,PUT,PATCH,POST,DELETE")]
      body := .empty }
  { ((r.status 204).setHeader "Content-Length" "0") with body := .empty }

/-- The header name under which the cross-origin permission is read. -/
def allowOrigin : String := "access-control-allow-origin"

/-- The handler names on the way to the router: built-ins, `cors`, JSON parser. -/
def upToParser : List String :=
  ["query", "expressInit", "corsMiddleware", "jsonParser"]

/-- The way the JSON body parser leaves for a request (it depends neither on
the application state nor on the response object). -/
def parserSignal (rt : Runtime) (req : Request) : Signal :=
  (bodyParser.json.run rt express.state req Res.initial).2.2

/-- The condition under which the JSON body parser passes a request on without
an error: the request has no body, or is not of type `application/json`, or its
charset starts with `utf-` and its body is read and parses. -/
def parserPasses (rt : Runtime) (req : Request) : Bool :=
  !hasBody req || !shouldParse req ||
    (decide ((getCharset req).data.take 4 = "utf-".data) &&
      match read rt req (getCharset req) with
      | .ok text => parse rt text
      | .error _ => false)

/-- The condition under which a GET or HEAD request for the fixed body is
fresh, so that `res.send` answers 304: `If-None-Match` is given and is `*` or
lists the entity tag of the fixed body, `If-Modified-Since` is not given (the
response has no `Last-Modified` to compare with), and `Cache-Control` does not
say `no-cache`. -/
def conditionalHit (rt : Runtime) (req : Request) : Bool :=
  match req.given "if-none-match" with
  | none => false
  | some nm =>
    (req.given "if-modified-since").isNone && !(req.given "cache-control").any hasNoCache &&
      noneMatchHits nm (some (rt.etag fixedBody))

/-- A handler that is not in `src/app.js`: it switches the setting
`x-powered-by` off, as `req.app.disable('x-powered-by')` does, and goes on. -/
def disablePoweredBy : Handler :=
  { name := "disablePoweredBy"
    run := fun _ st _ res => ({ st with xPoweredBy := false }, res, .next) }

/-- An application that holds state a request changes, for contrast with
`app`: the handler above ahead of the same route. -/
def statefulApp : App :=
  (express.use disablePoweredBy).get "/test" testHandler

/-- A handler that is not in `src/app.js`: it lets an exception escape from a
callback, where Express cannot catch it. -/
def escaping : Handler :=
  { name := "escaping"
    run := fun _ st _ res => (st, res, .uncaught { status := none }) }

/-- An application from which an exception can escape, for contrast with
`app`: the handler above ahead of the same route. -/
def leakyApp : App :=
  (express.use escaping).get "/test" testHandler

/-- A number conversion that reads nothing but decimal digits. -/
def digitsOnly : String → Numeric := fun _ => .nan

/-- A GET `/test` request that declares JSON and carries the one character `x`. -/
def malformedGet : Request :=
  { method := "GET", path := "/test"
    headers := [("content-type", "application/json"), ("content-length", "1")]
    body := "x" }

/-- A conditional GET `/test` request: `If-None-Match: *`. -/
def conditionalGet : Request :=
  { method := "GET", path := "/test", headers := [("if-none-match", "*")], body := "" }

/-- A GET `/test` request with a well-formed JSON body, an `Origin`, and the
two conditional headers, of which `If-None-Match` names another entity. -/
def jsonGet : Request :=
  { method := "GET", path := "/test"
    headers := [("origin", "https://example.org"), ("content-type", "application/json"),
      ("content-length", "2"), ("if-none-match", "\"other\""),
      ("if-modified-since", "Wed, 21 Oct 2015 07:28:00 GMT")]
    body := "\x7b\x7d" }

/-- A plain GET `/test` request: no headers, no body. -/
def plainGet : Request :=
  { method := "GET", path := "/test", headers := [], body := "" }

/-- A GET `/test` request whose only header is `If-Modified-Since`. -/
def modifiedSinceGet : Request :=
  { method := "GET", path := "/test"
    headers := [("if-modified-since", "Wed, 21 Oct 2015 07:28:00 GMT")], body := "" }

/-- The request GET `/TEST`. -/
def upperCaseGet : Request :=
  { method := "GET", path := "/TEST", headers := [], body := "" }

/-- The request GET `/test/`. -/
def trailingSlashGet : Request :=
  { method := "GET", path := "/test/", headers := [], body := "" }

/-- The request GET `/unknown`. -/
def unknownGet : Request :=
  { method := "GET", path := "/unknown", headers := [], body := "" }

/-- The request HEAD `/test`. -/
def headTest : Request :=
  { method := "HEAD", path := "/test", headers := [], body := "" }

/-- The request OPTIONS `/test`. -/
def optionsTest : Request :=
  { method := "OPTIONS", path := "/test", headers := [], body := "" }

/-- The request POST `/test` without a body. -/
def postTest : Request :=
  { method := "POST", path := "/test", headers := [], body := "" }

/-- A POST `/unknown` request that declares JSON and carries the one character `x`. -/
def malformedPost : Request :=
  { method := "POST", path := "/unknown"
    headers := [("content-type", "application/json"), ("content-length", "1")]
    body := "x" }

/-- An OPTIONS `/test` request that declares JSON and carries the one character `x`. -/
def malformedOptions : Request :=
  { method := "OPTIONS", path := "/test"
    headers := [("content-type", "application/json"), ("content-length", "1")]
    body := "x" }

/-! ## Part 10: lemmas on the parsers, the router and the responses -/

theorem app_stack : app.stack =
    [.middleware query, .middleware expressInit, .middleware cors,
      .middleware bodyParser.json, .route routeLayer] := rfl

theorem app_state : app.state = { xPoweredBy := true, etag := true, locals := [] } := rfl

theorem json_run (rt : Runtime) (st : AppState) (req : Request) (res : Res) :
    bodyParser.json.run rt st req res = (st, res, parserSignal rt req) := by
  simp only [bodyParser.json, parserSignal]
  split_ifs <;> try rfl
  split <;> try rfl
  split_ifs <;> rfl

theorem parserPasses_iff (rt : Runtime) (req : Request) :
    parserPasses rt req = true ↔ parserSignal rt req = Signal.next := by
  simp only [bodyParser.json, parserPasses, parserSignal]
  by_cases h1 : hasBody req = true
  · by_cases h2 : shouldParse req = true
    · by_cases h3 : (getCharset req).data.take 4 = "utf-".data
      · cases h4 : read rt req (getCharset req) with
        | error e => simp [h1, h2, h3]
        | ok text =>
          by_cases h5 : parse rt text = true
          · simp [h1, h2, h3, h5]
          · simp [h1, h2, h3, h5]
      · simp [h1, h2, h3]
    · simp [h1, h2]
  · simp [h1]

theorem createError_status (s : Nat) (e : JsError) (hs : 400 ≤ s ∧ s < 600)
    (he : ∀ c, e.status = some c → 400 ≤ c ∧ c < 600) :
    ∃ c, (createError s e).status = some c ∧ 400 ≤ c ∧ c < 600 := by
  unfold createError
  cases h : e.status with
  | none => exact ⟨s, rfl, hs⟩
  | some c =>
    have hc := he c h
    have h0 : c ≠ 0 := by omega
    simp only [h0, if_false]
    exact ⟨c, h, hc⟩

theorem read_error_status (rt : Runtime) (req : Request) (cs : String) (e : JsError)
    (h : read rt req cs = Except.error e) : ∀ c, e.status = some c → 400 ≤ c ∧ c < 600 := by
  intro c hc
  have key : e = { status := some 415 } ∨ e = { status := some 413 } ∨ e = { status := none } := by
    unfold read at h
    by_cases h1 : (contentEncoding req != "identity" && contentEncoding req != "gzip" &&
        contentEncoding req != "deflate") = true
    · rw [if_pos h1] at h
      exact Or.inl (Except.error.inj h).symm
    · rw [if_neg h1] at h
      by_cases h2 : (cs != "utf-8" && (rt.decoder cs).isNone) = true
      · rw [if_pos h2] at h
        exact Or.inl (Except.error.inj h).symm
      · rw [if_neg h2] at h
        simp only at h
        cases hp : (if (contentEncoding req == "identity") = true then some req.body
            else rt.inflate (contentEncoding req) req.body) with
        | none =>
          rw [hp] at h
          exact Or.inr (Or.inr (Except.error.inj h).symm)
        | some bytes =>
          rw [hp] at h
          simp only at h
          by_cases h3 : bytes.utf8ByteSize > limit
          · rw [if_pos h3] at h
            exact Or.inr (Or.inl (Except.error.inj h).symm)
          · rw [if_neg h3] at h
            by_cases h4 : (cs == "utf-8") = true
            · rw [if_pos h4] at h
              cases h
            · rw [if_neg h4] at h
              cases hd : rt.decoder cs with
              | none =>
                rw [hd] at h
                exact Or.inl (Except.error.inj h).symm
              | some dec =>
                rw [hd] at h
                cases h
  rcases key with k | k | k
  · rw [k] at hc; cases hc; omega
  · rw [k] at hc; cases hc; omega
  · rw [k] at hc; cases hc

/-- The parser passes the request on, or hands an error to `next` whose
status lies in 400..599; it never ends the response, throws or lets an
exception escape. -/
theorem parserSignal_cases (rt : Runtime) (req : Request) :
    parserSignal rt req = Signal.next ∨
      ∃ e c, parserSignal rt req = Signal.nextErr e ∧ e.status = some c ∧ 400 ≤ c ∧ c < 600 := by
  simp only [bodyParser.json, parserSignal]
  split_ifs with h1 h2 h3
  · exact Or.inl rfl
  · exact Or.inl rfl
  · exact Or.inr ⟨_, 415, rfl, rfl, by omega, by omega⟩
  · cases h4 : read rt req (getCharset req) with
    | error e =>
      obtain ⟨c, hc, hr⟩ := createError_status 400 e (by omega) (read_error_status rt req _ e h4)
      exact Or.inr ⟨_, c, rfl, hc, hr⟩
    | ok text =>
      simp only
      split_ifs
      · exact Or.inl rfl
      · exact Or.inr ⟨_, 400, rfl, rfl, by omega, by omega⟩

theorem handle_eq (rt : Runtime) (req : Request) (o : Outcome)
    (h : Router.handle rt app req app.stack none
      { state := app.state, res := Res.initial, trace := [] } [] = (app.state, o)) :
    app.handle rt req = (app, o) := by
  simp only [App.handle, h]

theorem route_after_cors (rt : Runtime) (req : Request) (h : upper req.method ≠ "OPTIONS") :
    Router.handle rt app req app.stack none
        { state := app.state, res := Res.initial, trace := [] } [] =
      Router.handle rt app req [.middleware bodyParser.json, .route routeLayer] none
        { state := app.state, res := base, trace := ["query", "expressInit", "corsMiddleware"] }
        [] := by
  simp [app_stack, app_state, Router.handle, runHandler, query, expressInit, cors, h]
  rfl

theorem handle_preflight (rt : Runtime) (req : Request) (h : upper req.method = "OPTIONS") :
    app.handle rt req =
      (app, { res := preflight req, trace := ["query", "expressInit", "corsMiddleware"]
              raised := false }) := by
  apply handle_eq
  have hb : ((Res.initial.setHeader "X-Powered-By" "Express").setHeader
      "Access-Control-Allow-Origin" "*").setHeader "Access-Control-Allow-Methods"
      "GET,HEAD,PUT,PATCH,POST,DELETE" =
      { statusCode := 200
        headers := [("X-Powered-By", "Express"), ("Access-Control-Allow-Origin", "*"),
          ("Access-Control-Allow-Methods", "GET,HEAD,PUT,PATCH,POST,DELETE")]
        body := .empty } := by decide
  simp [app_stack, app_state, Router.handle, runHandler, query, expressInit, cors, h, preflight,
    hb]

theorem matchPath_test (p : String) :
    matchPath app "/test" p = (lower p == "/test" || lower p == "/test/") := by
  rfl

theorem handlesMethod_test (m : String) :
    routeLayer.handlesMethod m = (lower m == "get" || lower m == "head") := by
  simp only [Route.handlesMethod, routeLayer]
  by_cases h : lower m = "head"
  · simp [h]
  · by_cases h2 : lower m = "get" <;> simp [h, h2]

theorem lower_HEAD (m : String) (h : m = "HEAD") : lower m = "head" := by
  subst h; decide

theorem upper_OPTIONS (m : String) (h : m = "OPTIONS") : upper m = "OPTIONS" := by
  subst h; decide

theorem handle_rejected (rt : Runtime) (req : Request) (e : JsError)
    (h : upper req.method ≠ "OPTIONS")
    (he : parserSignal rt req = .nextErr e) :
    app.handle rt req =
      (app, { res := finalhandler req (some e) base
              trace := ["query", "expressInit", "corsMiddleware", "jsonParser"]
              raised := false }) := by
  apply handle_eq
  rw [route_after_cors rt req h]
  have h4 : req.method ≠ "OPTIONS" := fun hm => h (upper_OPTIONS _ hm)
  simp [Router.handle, runHandler, json_run, he, Router.done, h4]
  rfl

theorem handle_route (rt : Runtime) (req : Request)
    (h : upper req.method ≠ "OPTIONS")
    (hn : parserSignal rt req = .next)
    (hp : matchPath app "/test" req.path = true)
    (hm : routeLayer.handlesMethod req.method = true) :
    app.handle rt req =
      (app, { res := (base.status 200).json rt app.state req payload
              trace := ["query", "expressInit", "corsMiddleware", "jsonParser", "<anonymous>"]
              raised := false }) := by
  apply handle_eq
  rw [route_after_cors rt req h]
  have hd : routeLayer.dispatchMethod req = "get" := by
    rw [handlesMethod_test] at hm
    simp only [Route.dispatchMethod, routeLayer]
    by_cases hh : lower req.method = "head"
    · simp [hh]
    · simp [hh] at hm ⊢
      exact hm
  have hp2 : matchPath app routeLayer.path req.path = true := hp
  simp [Router.handle, runHandler, json_run, hn, hp2, hm, hd]
  simp [routeLayer, Route.dispatch, runHandler, testHandler]
  rfl

theorem handle_notFound (rt : Runtime) (req : Request)
    (h : upper req.method ≠ "OPTIONS")
    (hn : parserSignal rt req = .next)
    (hno : matchPath app "/test" req.path = false ∨ routeLayer.handlesMethod req.method = false) :
    app.handle rt req =
      (app, { res := finalhandler req none base
              trace := ["query", "expressInit", "corsMiddleware", "jsonParser"]
              raised := false }) := by
  apply handle_eq
  rw [route_after_cors rt req h]
  have h4 : req.method ≠ "OPTIONS" := fun hm => h (upper_OPTIONS _ hm)
  have hH : req.method = "HEAD" → routeLayer.handlesMethod req.method = true := by
    intro hh
    rw [handlesMethod_test, lower_HEAD _ hh]; decide
  rcases hno with hp | hm
  · have hp2 : matchPath app routeLayer.path req.path = false := hp
    simp [Router.handle, runHandler, json_run, hn, hp2, Router.done, h4]
    rfl
  · have hH2 : req.method ≠ "HEAD" := fun hh => by
      rw [hH hh] at hm; exact absurd hm (by decide)
    by_cases hp2 : matchPath app routeLayer.path req.path = true
    · simp [Router.handle, runHandler, json_run, hn, hp2, hm, hH2, Router.done, h4]
      rfl
    · simp [Router.handle, runHandler, json_run, hn, hp2, Router.done, h4]
      rfl

theorem handle_cases (rt : Runtime) (req : Request) :
    (upper req.method = "OPTIONS" ∧
      app.handle rt req =
        (app, { res := preflight req, trace := ["query", "expressInit", "corsMiddleware"]
                raised := false })) ∨
    (upper req.method ≠ "OPTIONS" ∧
      ∃ e c, parserSignal rt req = .nextErr e ∧ e.status = some c ∧ 400 ≤ c ∧ c < 600 ∧
      app.handle rt req =
        (app, { res := finalhandler req (some e) base
                trace := ["query", "expressInit", "corsMiddleware", "jsonParser"]
                raised := false })) ∨
    (upper req.method ≠ "OPTIONS" ∧
      parserSignal rt req = .next ∧
      matchPath app "/test" req.path = true ∧ routeLayer.handlesMethod req.method = true ∧
      app.handle rt req =
        (app, { res := (base.status 200).json rt app.state req payload
                trace := ["query", "expressInit", "corsMiddleware", "jsonParser", "<anonymous>"]
                raised := false })) ∨
    (upper req.method ≠ "OPTIONS" ∧
      parserSignal rt req = .next ∧
      (matchPath app "/test" req.path = false ∨ routeLayer.handlesMethod req.method = false) ∧
      app.handle rt req =
        (app, { res := finalhandler req none base
                trace := ["query", "expressInit", "corsMiddleware", "jsonParser"]
                raised := false })) := by
  by_cases h : upper req.method = "OPTIONS"
  · exact Or.inl ⟨h, handle_preflight rt req h⟩
  · right
    rcases parserSignal_cases rt req with hs | ⟨e, c, hs, hc, hr⟩
    · right
      by_cases hp : matchPath app "/test" req.path = true
      · by_cases hm : routeLayer.handlesMethod req.method = true
        · exact Or.inl ⟨h, hs, hp, hm, handle_route rt req h hs hp hm⟩
        · have hm2 : routeLayer.handlesMethod req.method = false := by simpa using hm
          exact Or.inr ⟨h, hs, Or.inr hm2, handle_notFound rt req h hs (Or.inr hm2)⟩
      · have hp2 : matchPath app "/test" req.path = false := by simpa using hp
        exact Or.inr ⟨h, hs, Or.inl hp2, handle_notFound rt req h hs (Or.inl hp2)⟩
    · exact Or.inl ⟨h, e, c, hs, hc, hr.1, hr.2, handle_rejected rt req e h hs⟩

theorem find_filter_append {α : Type} (p q : α → Bool) (x : α) (hx : p x = false)
    (hpq : ∀ a, p a = true → q a = true) (l : List α) :
    (l.filter q ++ [x]).find? p = l.find? p := by
  induction l with
  | nil => simp [List.find?, hx]
  | cons a l ih =>
    by_cases hq : q a = true
    · rw [List.filter_cons_of_pos hq, List.cons_append]
      by_cases hp : p a = true
      · rw [List.find?_cons_of_pos _ hp, List.find?_cons_of_pos _ hp]
      · rw [List.find?_cons_of_neg _ hp, List.find?_cons_of_neg _ hp]
        exact ih
    · have hp : ¬ p a = true := fun hc => hq (hpq a hc)
      rw [List.filter_cons_of_neg hq, List.find?_cons_of_neg _ hp]
      exact ih

theorem find_filter {α : Type} (p q : α → Bool)
    (hpq : ∀ a, p a = true → q a = true) (l : List α) :
    (l.filter q).find? p = l.find? p := by
  induction l with
  | nil => rfl
  | cons a l ih =>
    by_cases hq : q a = true
    · rw [List.filter_cons_of_pos hq]
      by_cases hp : p a = true
      · rw [List.find?_cons_of_pos _ hp, List.find?_cons_of_pos _ hp]
      · rw [List.find?_cons_of_neg _ hp, List.find?_cons_of_neg _ hp]
        exact ih
    · have hp : ¬ p a = true := fun hc => hq (hpq a hc)
      rw [List.filter_cons_of_neg hq, List.find?_cons_of_neg _ hp]
      exact ih

theorem find_append_hit {α : Type} (p q : α → Bool) (x : α) (hx : p x = true)
    (hpq : ∀ a, q a = true → p a = false) (l : List α) :
    (l.filter q ++ [x]).find? p = some x := by
  induction l with
  | nil => simp [List.find?, hx]
  | cons a l ih =>
    by_cases hq : q a = true
    · have hp : ¬ p a = true := by rw [hpq a hq]; simp
      rw [List.filter_cons_of_pos hq, List.cons_append, List.find?_cons_of_neg _ hp]
      exact ih
    · rw [List.filter_cons_of_neg hq]
      exact ih

theorem header_names_apart (n m : String) (h : (lower n == lower m) = false)
    (a : String × String) (ha : (lower a.1 == lower m) = true) :
    (lower a.1 != lower n) = true := by
  simp only [bne_iff_ne, ne_eq]
  intro hc
  have ha2 : lower a.1 = lower m := by simpa using ha
  rw [hc] at ha2
  simp [ha2] at h

theorem getHeader_setHeader (res : Res) (n v m : String) (h : (lower n == lower m) = false) :
    (res.setHeader n v).getHeader m = res.getHeader m := by
  simp only [Res.getHeader, Res.setHeader, Res.removeHeader]
  congr 1
  exact find_filter_append (fun a : String × String => lower a.1 == lower m)
    (fun a => lower a.1 != lower n) (n, v) h (header_names_apart n m h) _

theorem getHeader_setHeader_same (res : Res) (n v m : String)
    (h : (lower n == lower m) = true) :
    (res.setHeader n v).getHeader m = some v := by
  simp only [Res.getHeader, Res.setHeader, Res.removeHeader]
  rw [find_append_hit (fun a : String × String => lower a.1 == lower m)
    (fun a => lower a.1 != lower n) (n, v) h]
  · rfl
  · intro a ha
    have hn : lower n = lower m := by simpa using h
    have ha2 : lower a.1 ≠ lower n := by simpa using ha
    rw [hn] at ha2
    simpa using ha2

theorem getHeader_removeHeader (res : Res) (n m : String) (h : (lower n == lower m) = false) :
    (res.removeHeader n).getHeader m = res.getHeader m := by
  simp only [Res.getHeader, Res.removeHeader]
  congr 1
  exact find_filter (fun a : String × String => lower a.1 == lower m)
    (fun a => lower a.1 != lower n) (header_names_apart n m h) _

theorem getHeader_status (res : Res) (c : Nat) (m : String) :
    (res.status c).getHeader m = res.getHeader m := rfl

theorem getHeader_send (rt : Runtime) (st : AppState) (req : Request) (res : Res)
    (chunk : String) :
    (res.send rt st req chunk).getHeader allowOrigin = res.getHeader allowOrigin := by
  have e1 : ∀ (r : Res) (v : String), (r.setHeader "Content-Type" v).getHeader allowOrigin
      = r.getHeader allowOrigin := fun r v => getHeader_setHeader r _ v _ (by decide)
  have e2 : ∀ (r : Res) (v : String), (r.setHeader "Content-Length" v).getHeader allowOrigin
      = r.getHeader allowOrigin := fun r v => getHeader_setHeader r _ v _ (by decide)
  have e3 : ∀ (r : Res) (v : String), (r.setHeader "ETag" v).getHeader allowOrigin
      = r.getHeader allowOrigin := fun r v => getHeader_setHeader r _ v _ (by decide)
  have e4 : ∀ (r : Res), (r.removeHeader "Content-Type").getHeader allowOrigin
      = r.getHeader allowOrigin := fun r => getHeader_removeHeader r _ _ (by decide)
  have e5 : ∀ (r : Res), (r.removeHeader "Content-Length").getHeader allowOrigin
      = r.getHeader allowOrigin := fun r => getHeader_removeHeader r _ _ (by decide)
  have e6 : ∀ (r : Res), (r.removeHeader "Transfer-Encoding").getHeader allowOrigin
      = r.getHeader allowOrigin := fun r => getHeader_removeHeader r _ _ (by decide)
  have e7 : ∀ (r : Res) (b : Body), ({ r with body := b } : Res).getHeader allowOrigin
      = r.getHeader allowOrigin := fun _ _ => rfl
  simp only [Res.send]
  rw [e7]
  split_ifs <;> simp only [e1, e2, e3, e4, e5, e6, getHeader_status]

theorem getHeader_json (rt : Runtime) (st : AppState) (req : Request) (res : Res)
    (obj : List (String × String)) :
    (res.json rt st req obj).getHeader allowOrigin = res.getHeader allowOrigin := by
  simp only [Res.json, getHeader_send]
  split_ifs
  · exact getHeader_setHeader res _ _ _ (by decide)
  · rfl

theorem getHeader_finalhandler (req : Request) (err : Option JsError) (res : Res) :
    (finalhandler req err res).getHeader allowOrigin = res.getHeader allowOrigin := by
  have e7 : ∀ (r : Res) (b : Body), ({ r with body := b } : Res).getHeader allowOrigin
      = r.getHeader allowOrigin := fun _ _ => rfl
  simp only [finalhandler]
  rw [e7, getHeader_removeHeader _ _ _ (by decide), getHeader_setHeader _ _ _ _ (by decide),
    getHeader_setHeader _ _ _ _ (by decide), getHeader_setHeader _ _ _ _ (by decide),
    getHeader_status]

theorem getHeader_preflight (req : Request) :
    (preflight req).getHeader allowOrigin = some "*" := by
  have e7 : ∀ (r : Res) (b : Body), ({ r with body := b } : Res).getHeader allowOrigin
      = r.getHeader allowOrigin := fun _ _ => rfl
  simp only [preflight]
  rw [e7, getHeader_setHeader _ _ _ _ (by decide), getHeader_status]
  simp only [configureAllowedHeaders]
  split
  · rw [getHeader_setHeader _ _ _ _ (by decide)]; decide
  · rw [getHeader_setHeader _ _ _ _ (by decide), getHeader_setHeader _ _ _ _ (by decide)]
    decide

theorem finalhandler_statusCode (req : Request) (err : Option JsError) (res : Res) :
    (finalhandler req err res).statusCode =
      (match err with
      | none => 404
      | some e => errorStatus e res) := rfl

theorem errorStatus_of_status (e : JsError) (res : Res) (c : Nat)
    (hc : e.status = some c) (h : 400 ≤ c ∧ c < 600) : errorStatus e res = c := by
  unfold errorStatus
  rw [hc]
  simp [h.1, h.2]

theorem finalhandler_body (req : Request) (err : Option JsError) (res : Res) :
    (finalhandler req err res).body =
      (if req.method == "HEAD" then Body.empty else Body.errorDocument) := rfl

theorem preflight_status (req : Request) : (preflight req).statusCode = 204 := rfl

theorem preflight_body (req : Request) : (preflight req).body = Body.empty := rfl

theorem allowOrigin_always (rt : Runtime) (req : Request) :
    (app.handle rt req).2.res.getHeader allowOrigin = some "*" := by
  have hb : base.getHeader allowOrigin = some "*" := by decide
  rcases handle_cases rt req with ⟨_, h⟩ | ⟨_, e, c, _, _, _, _, h⟩ | ⟨_, _, _, _, h⟩ |
    ⟨_, _, _, h⟩
  · rw [h]; exact getHeader_preflight req
  · rw [h]; simp only [getHeader_finalhandler, hb]
  · rw [h]; simp only [getHeader_json, getHeader_status, hb]
  · rw [h]; simp only [getHeader_finalhandler, hb]

theorem noneMatchHits_empty (nm : String) :
    noneMatchHits nm none = noneMatchHits nm (some "") := by
  simp [noneMatchHits]

theorem fresh_eq (rt : Runtime) (req : Request) (r : Res)
    (hl : r.getHeader "last-modified" = none)
    (he : r.getHeader "etag" =
      if rt.etag fixedBody != "" then some (rt.etag fixedBody) else none) :
    fresh rt req r = conditionalHit rt req := by
  have hh : ∀ nm, noneMatchHits nm (r.getHeader "etag")
      = noneMatchHits nm (some (rt.etag fixedBody)) := by
    intro nm
    rw [he]
    by_cases h0 : rt.etag fixedBody = ""
    · simp [h0, noneMatchHits_empty]
    · simp [h0]
  unfold fresh conditionalHit
  cases h1 : req.given "if-none-match" with
  | none =>
    cases h2 : req.given "if-modified-since" with
    | none => simp
    | some ms => simp [hl]
  | some nm =>
    cases h2 : req.given "if-modified-since" with
    | none =>
      by_cases h3 : (req.given "cache-control").any hasNoCache = true
      · simp [h3]
      · simp [h3, hh]
    | some ms => simp [hl]

theorem stringify_payload : stringify payload = fixedBody := by decide

theorem sized_eq :
    ((base.status 200).setHeader "Content-Type" "application/json; charset=utf-8").setHeader
      "Content-Length" (toString fixedBody.utf8ByteSize) = sized := by decide

/-- The status and body `res.send` produces for the fixed body: 304 without a
body for a fresh conditional request, else 200 with the body; no body for HEAD. -/
theorem route_response (rt : Runtime) (req : Request)
    (hm : req.method = "GET" ∨ req.method = "HEAD") :
    ((base.status 200).json rt app.state req payload).statusCode =
        (if conditionalHit rt req then 304 else 200) ∧
      ((base.status 200).json rt app.state req payload).body =
        (if req.method == "HEAD" then Body.empty
          else Body.sent (if conditionalHit rt req then "" else fixedBody)) := by
  have hct : ((base.status 200).getHeader "content-type").isNone = true := by decide
  have h2 : (((base.status 200).setHeader "Content-Type"
      "application/json; charset=utf-8").getHeader "content-type").isNone = false := by decide
  have h3 : (((base.status 200).setHeader "Content-Type"
      "application/json; charset=utf-8").getHeader "etag").isNone = true := by decide
  simp only [Res.json, hct, if_true, stringify_payload, Res.send, h2, h3, sized_eq, app_state,
    Bool.false_eq_true, if_false, Bool.and_self, Bool.true_and]
  have r2s : sized.statusCode = 200 := rfl
  have r2e : sized.getHeader "etag" = none := by decide
  have r2l : sized.getHeader "last-modified" = none := by decide
  generalize hr3 : (if (rt.etag fixedBody != "") = true
    then sized.setHeader "ETag" (rt.etag fixedBody) else sized) = r3
  have r3s : r3.statusCode = 200 := by
    rw [← hr3]; split_ifs
    · exact r2s
    · exact r2s
  have r3l : r3.getHeader "last-modified" = none := by
    rw [← hr3]; split_ifs
    · rw [getHeader_setHeader _ _ _ _ (by decide)]; exact r2l
    · exact r2l
  have r3e : r3.getHeader "etag" =
      if rt.etag fixedBody != "" then some (rt.etag fixedBody) else none := by
    rw [← hr3]; split_ifs
    · exact getHeader_setHeader_same _ _ _ _ (by decide)
    · exact r2e
  have hf : req.isFresh rt r3 = conditionalHit rt req := by
    unfold Request.isFresh
    rw [r3s, fresh_eq rt req r3 r3l r3e]
    rcases hm with hm | hm <;> simp [hm]
  rw [hf]
  by_cases hh : conditionalHit rt req = true
  · simp [hh, Res.status, Res.removeHeader]
  · simp [hh, r3s]

theorem length_dropWhile_le_self (p : Char → Bool) (cs : List Char) :
    (cs.dropWhile p).length ≤ cs.length :=
  (List.dropWhile_sublist p).length_le

theorem quotedRest_shorter_aux (qd qe : Char → Bool) :
    ∀ (n : Nat) (cs v rest : List Char), cs.length ≤ n →
      quotedRest qd qe cs = some (v, rest) → rest.length < cs.length := by
  intro n
  induction n with
  | zero =>
    intro cs v rest hn h
    cases cs with
    | nil => simp [quotedRest] at h
    | cons c cs => simp at hn
  | succ n ih =>
    intro cs v rest hn h
    cases cs with
    | nil => simp [quotedRest] at h
    | cons c cs =>
      unfold quotedRest at h
      by_cases hc : c = '"'
      · rw [if_pos hc] at h
        simp only [Option.some.injEq, Prod.mk.injEq] at h
        rw [← h.2]; simp
      · rw [if_neg hc] at h
        by_cases hb : c = '\\'
        · rw [if_pos hb] at h
          cases cs with
          | nil => simp at h
          | cons e r =>
            simp only at h
            by_cases he : qe e = true
            · rw [if_pos he] at h
              cases hq : quotedRest qd qe r with
              | none => rw [hq] at h; simp at h
              | some pr =>
                obtain ⟨v2, r2⟩ := pr
                rw [hq] at h
                simp only [Option.map_some', Option.some.injEq, Prod.mk.injEq] at h
                have hl : r.length ≤ n := by simp only [List.length_cons] at hn; omega
                have := ih r v2 r2 hl hq
                rw [← h.2]
                simp only [List.length_cons]; omega
            · rw [if_neg he] at h; simp at h
        · rw [if_neg hb] at h
          by_cases hq : qd c = true
          · rw [if_pos hq] at h
            cases hq2 : quotedRest qd qe cs with
            | none => rw [hq2] at h; simp at h
            | some pr =>
              obtain ⟨v2, r2⟩ := pr
              rw [hq2] at h
              simp only [Option.map_some', Option.some.injEq, Prod.mk.injEq] at h
              have hl : cs.length ≤ n := by simp only [List.length_cons] at hn; omega
              have := ih cs v2 r2 hl hq2
              rw [← h.2]
              simp only [List.length_cons]; omega
          · rw [if_neg hq] at h; simp at h

theorem quotedRest_shorter (qd qe : Char → Bool) (cs v rest : List Char)
    (h : quotedRest qd qe cs = some (v, rest)) : rest.length < cs.length :=
  quotedRest_shorter_aux qd qe cs.length cs v rest (Nat.le_refl _) h

/-- A matched parameter uses up at least one character. -/
theorem parseParam_shorter (qd qe : Char → Bool) (cs : List Char) (k v : String)
    (rest : List Char) (h : parseParam qd qe cs = some (k, v, rest)) :
    rest.length < cs.length := by
  unfold parseParam at h
  split at h
  · rename_i r0
    simp only at h
    split at h
    · rename_i r3 heq
      have h1 : ('=' :: r3).length ≤ r0.length := by
        rw [← heq]
        exact Nat.le_trans (length_dropWhile_le_self _ _)
          (Nat.le_trans (length_dropWhile_le_self _ _) (length_dropWhile_le_self _ _))
      simp only [List.length_cons] at h1
      split_ifs at h
      split at h
      · rename_i r5 heq2
        have h2 : ('"' :: r5).length ≤ r3.length := by
          rw [← heq2]; exact length_dropWhile_le_self _ _
        simp only [List.length_cons] at h2
        split at h
        · cases h
        · rename_i v6 r6 hq
          simp only [Option.some.injEq, Prod.mk.injEq] at h
          have h3 := quotedRest_shorter qd qe r5 v6 r6 hq
          have h4 := length_dropWhile_le_self isBlank r6
          rw [← h.2.2]
          simp only [List.length_cons]; omega
      · rename_i r4 _
        split_ifs at h
        simp only [Option.some.injEq, Prod.mk.injEq] at h
        have h2 : (r3.dropWhile isBlank).length ≤ r3.length := length_dropWhile_le_self _ _
        have h4 : (((r3.dropWhile isBlank).dropWhile isTokenChar).dropWhile isBlank).length
            ≤ (r3.dropWhile isBlank).length :=
          Nat.le_trans (length_dropWhile_le_self _ _) (length_dropWhile_le_self _ _)
        rw [← h.2.2]
        simp only [List.length_cons]; omega
    · cases h
  · cases h

/-- The bound of the parameter loop is enough: any bound from the length of
the text on gives the same result. -/
theorem parseParams_fuel (qd qe : Char → Bool) :
    ∀ (n m : Nat) (cs : List Char), cs.length ≤ n → cs.length ≤ m →
      parseParams qd qe n cs = parseParams qd qe m cs := by
  intro n
  induction n with
  | zero =>
    intro m cs hn _
    cases cs with
    | nil => cases m <;> rfl
    | cons c cs => simp at hn
  | succ n ih =>
    intro m cs hn hm
    cases cs with
    | nil => cases m <;> rfl
    | cons c cs =>
      cases m with
      | zero => simp at hm
      | succ m =>
        simp only [parseParams]
        cases hp : parseParam qd qe (c :: cs) with
        | none => rfl
        | some pr =>
          obtain ⟨k, v, rest⟩ := pr
          have hs := parseParam_shorter qd qe (c :: cs) k v rest hp
          simp only [List.length_cons] at hs hn hm
          simp only
          rw [ih m rest (by omega) (by omega)]

/-! ## Part 11: the bootstrap (`src/index.js`) -/

theorem port_of_lookup (env : Env) :
    port env =
      (match env.lookup "PORT" with
      | none => JsValue.num 8080
      | some p => if p = "" then JsValue.num 8080 else JsValue.str p) := by
  simp only [port, Env.get]
  cases env.lookup "PORT" with
  | none => rfl
  | some p =>
    by_cases hp : p = ""
    · simp [JsValue.or, JsValue.truthy, hp]
    · simp [JsValue.or, JsValue.truthy, hp]

/-- C4: when `PORT` is unset or is the empty string, `server.listen` is called
once, with the number 8080. -/
theorem listen_default_port (env : Env)
    (h : env.lookup "PORT" = none ∨ env.lookup "PORT" = some "") :
    (main env).listenCalls = [JsValue.num 8080] := by
  have hp := port_of_lookup env
  rcases h with h | h <;> rw [h] at hp <;> simp [main, hp]

/-- Instances: the empty environment, and an environment with `PORT` empty. -/
theorem listen_default_port_witness :
    (main []).listenCalls = [JsValue.num 8080] ∧
      (main [("HOME", "/root"), ("PORT", "")]).listenCalls = [JsValue.num 8080] :=
  ⟨listen_default_port [] (Or.inl (by decide)),
    listen_default_port [("HOME", "/root"), ("PORT", "")] (Or.inr (by decide))⟩

theorem listen_natural (conv : String → Numeric) (p : String) (n : Nat)
    (hn : toNumeric conv p = Numeric.natural n) (h1 : 1 ≤ n) (h2 : n ≤ 65535) :
    p ≠ "" ∧ listen conv (JsValue.str p) = ListenTarget.tcp n := by
  have ht : trimBy isJsSpace p.data ≠ [] := by
    intro hc
    unfold toNumeric at hn
    rw [if_pos hc] at hn
    cases hn
    omega
  have hp : p ≠ "" := by
    intro hc
    apply ht
    rw [hc]
    rfl
  refine ⟨hp, ?_⟩
  have h3 : ¬ n > 65535 := by omega
  have h4 : ¬ n = 0 := by omega
  simp [listen, hn, ht, bindPort, h3, h4]

/-- C5, as amended: when `PORT` is a text in which JavaScript reads an integer
`n` from 1 to 65535, as it does in a text of decimal digits, `server.listen` is
called once, with that text, and what it asks for is TCP port `n`, which is not
port 8080 unless `n` is 8080. -/
theorem listen_env_port (conv : String → Numeric) (env : Env) (p : String) (n : Nat)
    (h : env.lookup "PORT" = some p)
    (hn : toNumeric conv p = Numeric.natural n) (h1 : 1 ≤ n) (h2 : n ≤ 65535) :
    (main env).listenCalls = [JsValue.str p] ∧
      (main env).listenCalls.map (listen conv) = [ListenTarget.tcp n] ∧
      (n ≠ 8080 → (main env).listenCalls.map (listen conv) ≠ [ListenTarget.tcp 8080]) := by
  obtain ⟨hp, hl⟩ := listen_natural conv p n hn h1 h2
  have hq := port_of_lookup env
  rw [h] at hq
  simp only [hp, if_false] at hq
  have hc : (main env).listenCalls = [JsValue.str p] := by simp [main, hq]
  refine ⟨hc, by rw [hc]; simp [hl], ?_⟩
  intro hne
  rw [hc]
  simp [hl, hne]

/-- Instance: the environment with `PORT=9090`, which gives TCP port 9090. -/
theorem listen_env_port_witness :
    (main [("PORT", "9090")]).listenCalls = [JsValue.str "9090"] ∧
      (main [("PORT", "9090")]).listenCalls.map (listen digitsOnly) = [ListenTarget.tcp 9090] ∧
      (9090 ≠ 8080 →
        (main [("PORT", "9090")]).listenCalls.map (listen digitsOnly)
          ≠ [ListenTarget.tcp 8080]) :=
  listen_env_port digitsOnly [("PORT", "9090")] "9090" 9090 (by decide) (by decide)
    (by decide) (by decide)

/-- C5 as stated fails: `PORT=99999` and `PORT=65536` are non-empty and are
passed to `server.listen` as they are, but the call throws and no port is
listened on; `PORT=0` makes the system choose the port, which is not port 0. -/
theorem listen_port_out_of_range :
    (main [("PORT", "99999")]).listenCalls = [JsValue.str "99999"] ∧
      (main [("PORT", "99999")]).listenCalls.map (listen digitsOnly) = [ListenTarget.throws] ∧
      (main [("PORT", "65536")]).listenCalls.map (listen digitsOnly) = [ListenTarget.throws] ∧
      (main [("PORT", "0")]).listenCalls = [JsValue.str "0"] ∧
      (main [("PORT", "0")]).listenCalls.map (listen digitsOnly) = [ListenTarget.anyPort] := by
  decide

/-- C9: nothing is logged before the `listening` event; its delivery logs
exactly one line, `Server running on port ` followed by the value that was
passed to `server.listen` (8080 when `PORT` is unset or empty, the `PORT` value
otherwise); a further `listening` event adds no line, and a bind error logs
nothing. -/
theorem log_line_on_listening (env : Env) :
    (main env).console = [] ∧
      (main env).listenCalls = [port env] ∧
      ((main env).deliver .listening).console =
        ["Server running on port " ++ (port env).toString] ∧
      (port env).toString =
        (match env.lookup "PORT" with
        | none => "8080"
        | some p => if p = "" then "8080" else p) ∧
      (((main env).deliver .listening).deliver .listening).console =
        ((main env).deliver .listening).console ∧
      ((main env).deliver .error).console = [] ∧
      (((main env).deliver .error).deliver .listening).console = [] := by
  refine ⟨rfl, rfl, rfl, ?_, rfl, rfl, rfl⟩
  rw [port_of_lookup]
  cases env.lookup "PORT" with
  | none => decide
  | some p =>
    by_cases hp : p = ""
    · simp only [hp, if_true]; decide
    · simp only [hp, if_false]; rfl

/-- C10: `PORT` is neither parsed nor validated: the value passed to
`server.listen` is the number 8080 when `PORT` is unset or empty and the string
`PORT` itself otherwise, so it is 8080 if and only if `PORT` is unset or empty;
`0`, `abc`, `-1` and `99999` are passed as they are. -/
theorem port_passed_unchanged (env : Env) :
    (main env).listenCalls = [port env] ∧
      port env =
        (match env.lookup "PORT" with
        | none => JsValue.num 8080
        | some p => if p = "" then JsValue.num 8080 else JsValue.str p) ∧
      (port env = JsValue.num 8080 ↔
        (env.lookup "PORT" = none ∨ env.lookup "PORT" = some "")) ∧
      port [("PORT", "0")] = JsValue.str "0" ∧
      port [("PORT", "abc")] = JsValue.str "abc" ∧
      port [("PORT", "-1")] = JsValue.str "-1" ∧
      port [("PORT", "99999")] = JsValue.str "99999" := by
  refine ⟨rfl, port_of_lookup env, ?_, by decide, by decide, by decide, by decide⟩
  rw [port_of_lookup]
  cases env.lookup "PORT" with
  | none => simp
  | some p =>
    by_cases hp : p = ""
    · simp [hp]
    · simp [hp]

/-! ## Part 12: the application (`src/app.js`) -/

theorem route_reply (rt : Runtime) (req : Request)
    (hm : req.method = "GET") (hp : req.path = "/test")
    (hq : parserPasses rt req = true) (hc : conditionalHit rt req = false) :
    app.handle rt req =
        (app, { res := (base.status 200).json rt app.state req payload
                trace := ["query", "expressInit", "corsMiddleware", "jsonParser", "<anonymous>"]
                raised := false }) ∧
      ((base.status 200).json rt app.state req payload).statusCode = 200 ∧
      ((base.status 200).json rt app.state req payload).body = Body.sent fixedBody := by
  have hb := (parserPasses_iff rt req).mp hq
  have ho : upper req.method ≠ "OPTIONS" := by rw [hm]; decide
  have hmp : matchPath app "/test" req.path = true := by rw [hp]; decide
  have hh : routeLayer.handlesMethod req.method = true := by rw [hm]; decide
  have hr := route_response rt req (Or.inl hm)
  rw [hc] at hr
  have hH : (req.method == "HEAD") = false := by rw [hm]; decide
  rw [hH] at hr
  exact ⟨handle_route rt req ho hb hmp hh, by simpa using hr.1, by simpa using hr.2⟩

/-- C1, as amended: a GET `/test` request that the JSON body parser passes on
(the request has no body, or is not `application/json`, or its body is read and
parses) and that is not a fresh conditional request (`If-None-Match` is not
given, or names neither `*` nor the entity tag of the body, or
`If-Modified-Since` or `Cache-Control: no-cache` is given) runs through `cors`,
the parser and the route handler and is answered with status 200 and exactly
the body `{"text":"Simple Node App Is Working As Expected!"}`. -/
theorem get_test_answer (rt : Runtime) (req : Request)
    (hm : req.method = "GET") (hp : req.path = "/test")
    (hq : parserPasses rt req = true) (hc : conditionalHit rt req = false) :
    (app.handle rt req).2.res.statusCode = 200 ∧
      (app.handle rt req).2.res.body = Body.sent fixedBody ∧
      (app.handle rt req).2.trace = upToParser ++ [testHandler.name] := by
  obtain ⟨h, hs, hb⟩ := route_reply rt req hm hp hq hc
  rw [h]
  exact ⟨hs, hb, rfl⟩

/-- Instances: GET `/test` with an `Origin`, the JSON body `{}`, an
`If-None-Match` that names another entity and an `If-Modified-Since`. -/
theorem get_test_answer_witness :
    (app.handle Runtime.lenient jsonGet).2.res.statusCode = 200 ∧
      (app.handle Runtime.lenient jsonGet).2.res.body = Body.sent fixedBody ∧
      (app.handle Runtime.lenient jsonGet).2.trace = upToParser ++ [testHandler.name] :=
  get_test_answer Runtime.lenient jsonGet rfl rfl (by decide) (by decide)

/-- C1 as stated fails: a GET `/test` request declaring JSON with the body `x`
is answered 400 by the parser and never reaches the handler, and a GET `/test`
request with `If-None-Match: *` is answered 304 with an empty body. -/
theorem get_test_not_always_200 :
    malformedGet.method = "GET" ∧ malformedGet.path = "/test" ∧
      (app.handle Runtime.lenient malformedGet).2.res.statusCode = 400 ∧
      (app.handle Runtime.lenient malformedGet).2.trace = upToParser ∧
      conditionalGet.method = "GET" ∧ conditionalGet.path = "/test" ∧
      (app.handle Runtime.lenient conditionalGet).2.res.statusCode = 304 ∧
      (app.handle Runtime.lenient conditionalGet).2.res.body = Body.sent "" := by
  decide

/-- C2, as amended: for every request whose path, letter case ignored, is
neither `/test` nor `/test/`, the route handler is not run and the response
status is not 200: it is 204 when the request is an OPTIONS request; otherwise
it is 404 when the JSON body parser passes the request on, and the status of
the parser's error, from 400 to 599, when it does not. -/
theorem other_path_not_served (rt : Runtime) (req : Request)
    (h1 : lower req.path ≠ "/test") (h2 : lower req.path ≠ "/test/") :
    testHandler.name ∉ (app.handle rt req).2.trace ∧
      (app.handle rt req).2.res.statusCode ≠ 200 ∧
      (upper req.method = "OPTIONS" → (app.handle rt req).2.res.statusCode = 204) ∧
      (upper req.method ≠ "OPTIONS" → parserPasses rt req = true →
        (app.handle rt req).2.res.statusCode = 404) ∧
      (upper req.method ≠ "OPTIONS" → parserPasses rt req = false →
        400 ≤ (app.handle rt req).2.res.statusCode ∧
          (app.handle rt req).2.res.statusCode < 600) := by
  have hno : matchPath app "/test" req.path = false := by
    rw [matchPath_test]; simp [h1, h2]
  have t3 : testHandler.name ∉ ["query", "expressInit", "corsMiddleware"] := by decide
  have t4 : testHandler.name ∉ ["query", "expressInit", "corsMiddleware", "jsonParser"] := by
    decide
  rcases handle_cases rt req with ⟨ho, h⟩ | ⟨ho, e, c, he, hc, hlo, hhi, h⟩ |
    ⟨_, _, hp, _, _⟩ | ⟨ho, hn, _, h⟩
  · rw [h]
    refine ⟨t3, ?_, fun _ => rfl, fun hx => absurd ho hx, fun hx => absurd ho hx⟩
    show (preflight req).statusCode ≠ 200
    rw [preflight_status]; decide
  · rw [h]
    have hs : (finalhandler req (some e) base).statusCode = c := by
      rw [finalhandler_statusCode]; exact errorStatus_of_status e base c hc ⟨hlo, hhi⟩
    refine ⟨t4, ?_, fun hx => absurd hx ho, ?_, ?_⟩
    · show (finalhandler req (some e) base).statusCode ≠ 200
      rw [hs]; omega
    · intro _ hq
      have hn := (parserPasses_iff rt req).mp hq
      rw [he] at hn
      exact Signal.noConfusion hn
    · intro _ _
      show 400 ≤ (finalhandler req (some e) base).statusCode ∧
        (finalhandler req (some e) base).statusCode < 600
      rw [hs]; exact ⟨hlo, hhi⟩
  · rw [hno] at hp; exact absurd hp (by decide)
  · rw [h]
    refine ⟨t4, ?_, fun hx => absurd hx ho, fun _ _ => rfl, ?_⟩
    · show (finalhandler req none base).statusCode ≠ 200
      rw [finalhandler_statusCode]; decide
    · intro _ hq
      have hq2 := (parserPasses_iff rt req).mpr hn
      rw [hq2] at hq
      cases hq

/-- Instance: GET `/unknown`. -/
theorem other_path_not_served_witness :
    testHandler.name ∉ (app.handle Runtime.lenient unknownGet).2.trace ∧
      (app.handle Runtime.lenient unknownGet).2.res.statusCode ≠ 200 ∧
      (upper unknownGet.method = "OPTIONS" →
        (app.handle Runtime.lenient unknownGet).2.res.statusCode = 204) ∧
      (upper unknownGet.method ≠ "OPTIONS" → parserPasses Runtime.lenient unknownGet = true →
        (app.handle Runtime.lenient unknownGet).2.res.statusCode = 404) ∧
      (upper unknownGet.method ≠ "OPTIONS" → parserPasses Runtime.lenient unknownGet = false →
        400 ≤ (app.handle Runtime.lenient unknownGet).2.res.statusCode ∧
          (app.handle Runtime.lenient unknownGet).2.res.statusCode < 600) :=
  other_path_not_served Runtime.lenient unknownGet (by decide) (by decide)

/-- C2 as stated fails: the paths `/TEST` and `/test/` are not the string
`/test`, yet GET on either runs the route handler and is answered 200 with the
fixed body; GET `/unknown` is answered 404. -/
theorem other_spelling_is_served :
    upperCaseGet.path ≠ "/test" ∧
      testHandler.name ∈ (app.handle Runtime.lenient upperCaseGet).2.trace ∧
      (app.handle Runtime.lenient upperCaseGet).2.res.statusCode = 200 ∧
      (app.handle Runtime.lenient upperCaseGet).2.res.body = Body.sent fixedBody ∧
      trailingSlashGet.path ≠ "/test" ∧
      testHandler.name ∈ (app.handle Runtime.lenient trailingSlashGet).2.trace ∧
      (app.handle Runtime.lenient trailingSlashGet).2.res.statusCode = 200 ∧
      (app.handle Runtime.lenient unknownGet).2.res.statusCode = 404 := by
  decide

/-- C3, as amended: for every request, to `/test` or to any other path, whose
method, letter case ignored, is neither GET nor HEAD, the route handler is not
run and the response is not a 200 and does not carry the fixed body; an OPTIONS
request is answered 204 by `cors`; a request that is not an OPTIONS request and
that the body parser passes on gets the default not-found response, status 404
with the error page. -/
theorem other_method_not_served (rt : Runtime) (req : Request)
    (h1 : lower req.method ≠ "get") (h2 : lower req.method ≠ "head") :
    testHandler.name ∉ (app.handle rt req).2.trace ∧
      (app.handle rt req).2.res.statusCode ≠ 200 ∧
      (app.handle rt req).2.res.body ≠ Body.sent fixedBody ∧
      (upper req.method = "OPTIONS" → (app.handle rt req).2.res.statusCode = 204) ∧
      (upper req.method ≠ "OPTIONS" → parserPasses rt req = true →
        (app.handle rt req).2.res.statusCode = 404 ∧
          (app.handle rt req).2.res.body = Body.errorDocument) := by
  have hno : routeLayer.handlesMethod req.method = false := by
    rw [handlesMethod_test]; simp [h1, h2]
  have hH : req.method ≠ "HEAD" := fun hh => h2 (lower_HEAD _ hh)
  have hbody : ∀ err, (finalhandler req err base).body = Body.errorDocument := by
    intro err
    rw [finalhandler_body]; simp [hH]
  have t3 : testHandler.name ∉ ["query", "expressInit", "corsMiddleware"] := by decide
  have t4 : testHandler.name ∉ ["query", "expressInit", "corsMiddleware", "jsonParser"] := by
    decide
  have p4 : (preflight req).statusCode ≠ 200 := by rw [preflight_status]; decide
  have pb : (preflight req).body ≠ Body.sent fixedBody := by
    rw [preflight_body]; exact fun hc => Body.noConfusion hc
  have fb : ∀ err, (finalhandler req err base).body ≠ Body.sent fixedBody := by
    intro err; rw [hbody]; exact fun hc => Body.noConfusion hc
  rcases handle_cases rt req with ⟨ho, h⟩ | ⟨ho, e, c, he, hc, hlo, hhi, h⟩ |
    ⟨_, _, _, hm, _⟩ | ⟨ho, hn, _, h⟩
  · rw [h]
    exact ⟨t3, p4, pb, fun _ => rfl, fun hc => absurd ho hc⟩
  · rw [h]
    have hs : (finalhandler req (some e) base).statusCode = c := by
      rw [finalhandler_statusCode]; exact errorStatus_of_status e base c hc ⟨hlo, hhi⟩
    refine ⟨t4, ?_, fb _, fun hx => absurd hx ho, ?_⟩
    · show (finalhandler req (some e) base).statusCode ≠ 200
      rw [hs]; omega
    · intro _ hq
      have hn := (parserPasses_iff rt req).mp hq
      rw [he] at hn
      exact Signal.noConfusion hn
  · rw [hno] at hm; exact absurd hm (by decide)
  · rw [h]
    refine ⟨t4, ?_, fb _, fun hx => absurd hx ho, ?_⟩
    · show (finalhandler req none base).statusCode ≠ 200
      rw [finalhandler_statusCode]; decide
    · intro _ _
      exact ⟨rfl, hbody none⟩

/-- Instance: POST `/test`. -/
theorem other_method_not_served_witness :
    testHandler.name ∉ (app.handle Runtime.lenient postTest).2.trace ∧
      (app.handle Runtime.lenient postTest).2.res.statusCode ≠ 200 ∧
      (app.handle Runtime.lenient postTest).2.res.body ≠ Body.sent fixedBody ∧
      (upper postTest.method = "OPTIONS" →
        (app.handle Runtime.lenient postTest).2.res.statusCode = 204) ∧
      (upper postTest.method ≠ "OPTIONS" → parserPasses Runtime.lenient postTest = true →
        (app.handle Runtime.lenient postTest).2.res.statusCode = 404 ∧
          (app.handle Runtime.lenient postTest).2.res.body = Body.errorDocument) :=
  other_method_not_served Runtime.lenient postTest (by decide) (by decide)

/-- C3 as stated fails: HEAD `/test` is not a GET, yet it runs the route
handler and is answered 200 (without a body); OPTIONS `/test` is answered 204 by
`cors`, not with the default not-found response. -/
theorem head_and_options_are_answered :
    headTest.method ≠ "GET" ∧ headTest.path = "/test" ∧
      testHandler.name ∈ (app.handle Runtime.lenient headTest).2.trace ∧
      (app.handle Runtime.lenient headTest).2.res.statusCode = 200 ∧
      (app.handle Runtime.lenient headTest).2.res.body = Body.empty ∧
      optionsTest.method ≠ "GET" ∧ optionsTest.path = "/test" ∧
      (app.handle Runtime.lenient optionsTest).2.res.statusCode = 204 ∧
      (app.handle Runtime.lenient optionsTest).2.trace =
        ["query", "expressInit", "corsMiddleware"] := by
  decide

/-- Every request leaves the application as `src/app.js` built it: each of the
five handlers in its stack returns the application state it was given. -/
theorem handle_keeps_app (rt : Runtime) (req : Request) : (app.handle rt req).1 = app := by
  rcases handle_cases rt req with ⟨_, h⟩ | ⟨_, e, c, _, _, _, _, h⟩ | ⟨_, _, _, _, h⟩ |
    ⟨_, _, _, h⟩ <;> rw [h]

theorem handle_not_raised (rt : Runtime) (req : Request) :
    (app.handle rt req).2.raised = false := by
  rcases handle_cases rt req with ⟨_, h⟩ | ⟨_, e, c, _, _, _, _, h⟩ | ⟨_, _, _, _, h⟩ |
    ⟨_, _, _, h⟩ <;> rw [h]

theorem serve_app (rt : Runtime) (rs : List Request) : (app.serve rt rs).1 = app := by
  induction rs with
  | nil => rfl
  | cons r rs ih =>
    simp only [App.serve, handle_keeps_app]
    exact ih

theorem serve_append (rt : Runtime) (rs : List Request) (r : Request) :
    (app.serve rt (rs ++ [r])).2 = (app.serve rt rs).2 ++ [(app.handle rt r).2] := by
  induction rs with
  | nil => rfl
  | cons q rs ih =>
    simp only [List.cons_append, App.serve, handle_keeps_app, List.cons.injEq, true_and]
    exact ih

/-- For contrast: an application whose stack holds a handler that changes a
setting is not left as it was built, and the same request handled twice gets
two different responses. -/
theorem stateful_app_is_told_apart :
    (statefulApp.handle Runtime.lenient plainGet).1.state ≠ statefulApp.state ∧
      ((statefulApp.handle Runtime.lenient plainGet).1.handle Runtime.lenient plainGet).2 ≠
        (statefulApp.handle Runtime.lenient plainGet).2 := by
  decide

/-- For contrast: an application whose stack holds a handler that lets an
exception escape is seen to raise. -/
theorem leaky_app_is_told_apart :
    (leakyApp.handle Runtime.lenient plainGet).2.raised = true := by
  decide

/-- C6: handling requests changes nothing: after any finite sequence of
requests the application, with the state its handlers can reach, is the one
that `src/app.js` built; the outcome of a request handled after the sequence is
the outcome it has on the freshly built application; the outcomes of a sequence
extended by one request are those of the sequence followed by that outcome; and
a request handled twice gets the same outcome twice.  This holds for every
request, GET `/test` included. -/
theorem handling_is_stateless (rt : Runtime) (rs : List Request) (r : Request) :
    (app.serve rt rs).1 = app ∧
      (app.serve rt rs).1.state = express.state ∧
      ((app.serve rt rs).1.handle rt r).2 = (app.handle rt r).2 ∧
      (app.serve rt (rs ++ [r])).2 = (app.serve rt rs).2 ++ [(app.handle rt r).2] ∧
      (app.serve rt [r, r]).2 = [(app.handle rt r).2, (app.handle rt r).2] := by
  refine ⟨serve_app rt rs, ?_, ?_, serve_append rt rs r, ?_⟩
  · rw [serve_app]; rfl
  · rw [serve_app]
  · simp only [App.serve, handle_keeps_app]

/-- C7: every response of the application, so in particular the response to
a request to `/test` that carries an `Origin` header, whatever its value, has
the header `Access-Control-Allow-Origin` with the value `*`; `cors` is the
first handler after the two built-in ones and is run for every request. -/
theorem allow_origin_on_every_response (rt : Runtime) (req : Request) :
    (app.handle rt req).2.res.getHeader "access-control-allow-origin" = some "*" ∧
      ["query", "expressInit", "corsMiddleware"] <+: (app.handle rt req).2.trace := by
  refine ⟨allowOrigin_always rt req, ?_⟩
  rcases handle_cases rt req with ⟨_, h⟩ | ⟨_, e, c, _, _, _, _, h⟩ | ⟨_, _, _, _, h⟩ |
    ⟨_, _, _, h⟩
  · rw [h]
  · rw [h]; exact ⟨["jsonParser"], rfl⟩
  · rw [h]; exact ⟨["jsonParser", "<anonymous>"], rfl⟩
  · rw [h]; exact ⟨["jsonParser"], rfl⟩

theorem json_rejects (rt : Runtime) (req : Request) (text : String)
    (hs : shouldParse req = true)
    (hc : (getCharset req).data.take 4 = "utf-".data)
    (hr : read rt req (getCharset req) = Except.ok text)
    (hpar : parse rt text = false) :
    parserSignal rt req = Signal.nextErr { status := some 400 } := by
  have hb : hasBody req = true := by
    simp only [shouldParse, Bool.and_eq_true] at hs
    exact hs.1
  simp [parserSignal, bodyParser.json, hb, hs, hc, hr, hpar, createError]

/-- C8, as amended: every request that is not an OPTIONS request passes the
JSON body parser before routing (an OPTIONS request is answered by `cors`
first).  A request that is not an OPTIONS request, has a body and the type
`application/json` with a `utf-` charset, and whose body is read (supported
coding, at most 100kb) and fails the strict JSON parse, is answered 400 by the
default error handler, the route handler not being run and no exception leaving
the application; afterwards the application is the one that was built, and a
following GET `/test` request that the parser passes on and that is not a fresh
conditional request is answered 200 with the fixed body. -/
theorem malformed_json_rejected (rt : Runtime) (bad nxt : Request) (text : String)
    (ho : upper bad.method ≠ "OPTIONS")
    (hs : shouldParse bad = true)
    (hc : (getCharset bad).data.take 4 = "utf-".data)
    (hr : read rt bad (getCharset bad) = Except.ok text)
    (hpar : parse rt text = false)
    (hm : nxt.method = "GET") (hp : nxt.path = "/test")
    (hq : parserPasses rt nxt = true) (hh : conditionalHit rt nxt = false) :
    (app.handle rt bad).2.res.statusCode = 400 ∧
      (app.handle rt bad).2.raised = false ∧
      (app.handle rt bad).2.trace = upToParser ∧
      (app.handle rt bad).1 = app ∧
      ((app.handle rt bad).1.handle rt nxt).2.res.statusCode = 200 ∧
      ((app.handle rt bad).1.handle rt nxt).2.res.body = Body.sent fixedBody ∧
      ((app.handle rt bad).1.handle rt nxt).2.raised = false ∧
      (∀ req : Request, upper req.method ≠ "OPTIONS" →
        upToParser <+: (app.handle rt req).2.trace) := by
  have he := json_rejects rt bad text hs hc hr hpar
  have hbad := handle_rejected rt bad _ ho he
  obtain ⟨hn, hns, hnb⟩ := route_reply rt nxt hm hp hq hh
  have hs4 : (finalhandler bad (some { status := some 400 }) base).statusCode = 400 := by
    rw [finalhandler_statusCode]
    exact errorStatus_of_status _ base 400 rfl (by omega)
  refine ⟨?_, ?_, ?_, ?_, ?_, ?_, ?_, ?_⟩
  · rw [hbad]; exact hs4
  · rw [hbad]
  · rw [hbad]; rfl
  · rw [hbad]
  · rw [hbad, hn]; exact hns
  · rw [hbad, hn]; exact hnb
  · rw [hbad, hn]
  · intro req hq
    rcases handle_cases rt req with ⟨hx, _⟩ | ⟨_, e, c, _, _, _, _, h⟩ | ⟨_, _, _, _, h⟩ |
      ⟨_, _, _, h⟩
    · exact absurd hx hq
    · rw [h]; exact ⟨[], rfl⟩
    · rw [h]; exact ⟨["<anonymous>"], rfl⟩
    · rw [h]; exact ⟨[], rfl⟩

/-- Instance: POST `/unknown` declaring JSON with the body `x`, followed by a
GET `/test` that carries only `If-Modified-Since`. -/
theorem malformed_json_rejected_witness :
    (app.handle Runtime.lenient malformedPost).2.res.statusCode = 400 ∧
      (app.handle Runtime.lenient malformedPost).2.raised = false ∧
      (app.handle Runtime.lenient malformedPost).2.trace = upToParser ∧
      (app.handle Runtime.lenient malformedPost).1 = app ∧
      ((app.handle Runtime.lenient malformedPost).1.handle Runtime.lenient
        modifiedSinceGet).2.res.statusCode = 200 ∧
      ((app.handle Runtime.lenient malformedPost).1.handle Runtime.lenient
        modifiedSinceGet).2.res.body = Body.sent fixedBody ∧
      ((app.handle Runtime.lenient malformedPost).1.handle Runtime.lenient
        modifiedSinceGet).2.raised = false ∧
      (∀ req : Request, upper req.method ≠ "OPTIONS" →
        upToParser <+: (app.handle Runtime.lenient req).2.trace) :=
  malformed_json_rejected Runtime.lenient malformedPost modifiedSinceGet "x" (by decide)
    (by decide) (by decide) rfl (by decide) rfl rfl (by decide) (by decide)

/-- C8 as stated fails: an OPTIONS request declaring JSON with the body `x`
does not reach the JSON body parser and is not rejected: `cors` answers it with
204. -/
theorem preflight_bypasses_parsing :
    shouldParse malformedOptions = true ∧
      parse Runtime.lenient malformedOptions.body = false ∧
      (app.handle Runtime.lenient malformedOptions).2.res.statusCode = 204 ∧
      bodyParser.json.name ∉ (app.handle Runtime.lenient malformedOptions).2.trace ∧
      (app.handle Runtime.lenient malformedOptions).2.trace =
        ["query", "expressInit", "corsMiddleware"] := by
  decide

end NodejsEksDeploy
